import Mathlib

/-!
Shallow embedding of the CoreDNS-GSLB backend-selection and health-check
engine (files `backend.go`, `gslb.go` and the selection-algorithm file
holding `pickBackendWithFailover` .. `pickBackendWithGeoIP`).

Modelling conventions:
* Go `int` / `int64` values are `Int` / `Nat` with the relevant bounds made
  explicit where the source relies on them (`time.Duration` response times
  are nonnegative `Nat`s; the `math.MaxInt64` sentinel is `2 ^ 63 - 1`).
* The address-family test `net.ParseIP(ip).To4() != nil` etc. is embedded by
  storing, next to each backend's address string, the family that
  `net.ParseIP` assigns to it (`v4` when `To4 () != nil`, `v6` when
  `To16 () != nil && To4 () == nil`, `invalid` when the string does not
  parse).
* Fallible Go functions returning `(value, error)` become
  `Except String value`, with the `fmt.Errorf` texts kept.
* Randomness (`rand.Intn`, `rand.Shuffle`) and GeoIP database lookups are
  inputs: the draw, the shuffle and the lookup results are parameters of the
  embedded functions, and theorems quantify over them.
* `sync.Map` round-robin state is explicit: the cursor map is a
  `String → Option Nat` argument and the updated map is returned.  The Go
  cursor is an `int` that is only ever `0` or `(i+1) % len`, hence
  nonnegative, so it is embedded as `Nat`.
-/

namespace CoreDNSGSLB

/-- Address family of a backend address string, as classified by Go's
`net.ParseIP`: `v4` when `To4() != nil`, `v6` when `To16() != nil` and
`To4() == nil`, `invalid` when the string does not parse. -/
inductive IPFamily where
  | v4
  | v6
  | invalid
deriving DecidableEq, Repr, Inhabited

/-- Value of `dns.TypeA`. -/
def typeA : Nat := 1

/-- Value of `dns.TypeAAAA`. -/
def typeAAAA : Nat := 28

/-- Value of `math.MaxInt64`, the initial `bestTime` sentinel in
`pickBackendWithFastest`. -/
def maxInt64 : Nat := 2 ^ 63 - 1

/-- The `Backend` struct of `backend.go`.  `latitude`/`longitude` are Go
`float64` coordinates; only their equality is ever used by the code embedded
here, so they are carried as `Int` stand-ins.  Health-check configurations
are carried as opaque descriptors (`String`), since `updateBackend` only
compares them for structural equality and copies them. -/
structure Backend where
  fqdn : String := ""
  description : String := ""
  address : String := ""
  family : IPFamily := .invalid
  priority : Int := 0
  weight : Int := 1
  enable : Bool := true
  tags : List String := []
  healthChecks : List String := []
  timeout : String := "5s"
  alive : Bool := false
  country : String := ""
  city : String := ""
  asn : String := ""
  location : String := ""
  latitude : Int := 0
  longitude : Int := 0
  coordinatesSet : Bool := false
  lastHealthcheck : Nat := 0
  responseTime : Nat := 0
deriving DecidableEq, Repr, Inhabited

def Backend.GetFqdn (b : Backend) : String := b.fqdn

def Backend.GetDescription (b : Backend) : String := b.description

def Backend.GetAddress (b : Backend) : String := b.address

def Backend.GetPriority (b : Backend) : Int := b.priority

/-- Getter `GetWeight`: returns 1 when the declared weight is nonpositive,
else the declared weight. -/
def Backend.GetWeight (b : Backend) : Int := if b.weight ≤ 0 then 1 else b.weight

def Backend.IsEnabled (b : Backend) : Bool := b.enable

def Backend.GetTags (b : Backend) : List String := b.tags

def Backend.GetHealthChecks (b : Backend) : List String := b.healthChecks

def Backend.GetTimeout (b : Backend) : String := b.timeout

def Backend.GetCountry (b : Backend) : String := b.country

def Backend.GetCity (b : Backend) : String := b.city

def Backend.GetASN (b : Backend) : String := b.asn

def Backend.GetLocation (b : Backend) : String := b.location

def Backend.GetLatitude (b : Backend) : Int := b.latitude

def Backend.GetLongitude (b : Backend) : Int := b.longitude

def Backend.HasCoordinates (b : Backend) : Bool := b.coordinatesSet

def Backend.GetResponseTime (b : Backend) : Nat := b.responseTime

/-- Predicate `IsHealthy`: returns `b.Alive && b.Enable`. -/
def Backend.IsHealthy (b : Backend) : Bool := b.alive && b.enable

/-- The `Record` struct (declared in the repository's record file; its
fields used by the selection engine are `Fqdn`, `Mode` and `Backends`, as
read off `gslb.go` and the selection algorithms). -/
structure Record where
  fqdn : String := ""
  mode : String := "failover"
  backends : List Backend := []
deriving DecidableEq, Repr, Inhabited

/-- The positive address-family test used by `pickBackendWithFailover`,
`pickBackendWithRoundRobin`, `pickBackendWithRandom`,
`pickBackendWithWeighted`, the geoip tiers and `pickAllAddresses`:
`(recordType == dns.TypeA && net.ParseIP(ip).To4() != nil) ||
 (recordType == dns.TypeAAAA && net.ParseIP(ip).To16() != nil &&
  net.ParseIP(ip).To4() == nil)`. -/
def familyMatches (recordType : Nat) (b : Backend) : Bool :=
  (recordType == typeA && b.family == .v4) ||
    (recordType == typeAAAA && b.family == .v6)

/-- The negated address-family test used by `pickBackendWithFastest` and
`pickBackendWithNearestCoordinates`:
`(recordType == dns.TypeA && To4() == nil) ||
 (recordType == dns.TypeAAAA && (To16() == nil || To4() != nil))`. -/
def familySkip (recordType : Nat) (b : Backend) : Bool :=
  (recordType == typeA && !(b.family == .v4)) ||
    (recordType == typeAAAA && !(b.family == .v6))

/-! ## pickBackendWithFailover -/

/-- The `sort.Slice` call ordering the copied backend slice by ascending
`GetPriority`.  `sort.Slice` is an unspecified unstable sort with the strict
comparator `priority i < priority j`; `mergeSort` with the corresponding
`≤` is one sort satisfying that contract. -/
def sortedByPriority (l : List Backend) : List Backend :=
  l.mergeSort (fun a b => decide (a.GetPriority ≤ b.GetPriority))

/-- The collection loop of `pickBackendWithFailover`: `minPriority` starts
at the sentinel `-1`, is set from the first healthy matching backend, equal
priorities are appended, and the loop breaks at the first healthy matching
backend of a different (higher) priority. -/
def failoverCollect (recordType : Nat) (minPriority : Int) :
    List Backend → List String
  | [] => []
  | b :: rest =>
    if b.IsHealthy && familyMatches recordType b then
      let mp := if minPriority == -1 then b.GetPriority else minPriority
      if b.GetPriority == mp then
        b.GetAddress :: failoverCollect recordType mp rest
      else
        []
    else
      failoverCollect recordType minPriority rest

/-- Function `pickBackendWithFailover`. -/
def pickBackendWithFailover (record : Record) (recordType : Nat) :
    Except String (List String) :=
  let healthyIPs := failoverCollect recordType (-1) (sortedByPriority record.backends)
  if healthyIPs.isEmpty then
    .error s!"no healthy backends in failover mode for type {recordType}"
  else
    .ok healthyIPs

/-! ## pickBackendWithRoundRobin -/

/-- The healthy matching-family candidate list built by the loops of
`pickBackendWithRoundRobin` and `pickBackendWithRandom`. -/
def healthyFamilyBackends (record : Record) (recordType : Nat) : List Backend :=
  record.backends.filter (fun b => b.IsHealthy && familyMatches recordType b)

/-- Function `pickBackendWithRoundRobin`.  The `sync.Map` cursor state is passed in
and the updated state is returned alongside the result. -/
def pickBackendWithRoundRobin (rr : String → Option Nat) (domain : String)
    (record : Record) (recordType : Nat) :
    Except String (List String) × (String → Option Nat) :=
  let index := (rr domain).getD 0
  let healthyBackends := healthyFamilyBackends record recordType
  if healthyBackends.length == 0 then
    (.error s!"no healthy backends in round-robin mode for type {recordType}", rr)
  else
    let selectedBackend := healthyBackends.getD (index % healthyBackends.length) default
    (.ok [selectedBackend.GetAddress],
      fun d => if d == domain then some ((index + 1) % healthyBackends.length) else rr d)

/-! ## pickBackendWithRandom -/

/-- Function `pickBackendWithRandom`; the `rand.Shuffle` permutation is a parameter. -/
def pickBackendWithRandom (record : Record) (recordType : Nat)
    (shuffle : List Backend → List Backend) : Except String (List String) :=
  let healthyBackends := healthyFamilyBackends record recordType
  if healthyBackends.length == 0 then
    .error s!"no healthy backends in random mode for type {recordType}"
  else
    (shuffle healthyBackends).map Backend.GetAddress |> .ok

/-! ## pickBackendWithWeighted -/

/-- The eligible-candidate loop of `pickBackendWithWeighted`: healthy,
enabled, matching family, and `GetWeight() > 0`. -/
def weightedEligible (record : Record) (recordType : Nat) : List Backend :=
  record.backends.filter (fun b =>
    b.IsHealthy && b.IsEnabled && familyMatches recordType b &&
      decide (0 < b.GetWeight))

/-- Total `totalWeight` accumulated by the same loop. -/
def totalWeight (record : Record) (recordType : Nat) : Int :=
  ((weightedEligible record recordType).map Backend.GetWeight).sum

/-- The roulette-wheel walk of `pickBackendWithWeighted`: accumulate
`GetWeight`, return the first backend with `randVal < cumulative`. -/
def rouletteWalk (randVal : Int) : Int → List Backend → Option String
  | _, [] => none
  | cumulative, b :: rest =>
    let c := cumulative + b.GetWeight
    if randVal < c then some b.GetAddress else rouletteWalk randVal c rest

/-- Function `pickBackendWithWeighted`; the `rand.Intn(totalWeight)` draw is the
parameter `randVal`. -/
def pickBackendWithWeighted (record : Record) (recordType : Nat)
    (randVal : Int) : Except String (List String) :=
  let weightedBackends := weightedEligible record recordType
  if weightedBackends.isEmpty || totalWeight record recordType == 0 then
    .error s!"no healthy backends with weight > 0 for type {recordType}"
  else
    match rouletteWalk randVal 0 weightedBackends with
    | some addr => .ok [addr]
    | none => .error "weighted selection failed"

/-! ## pickBackendWithFastest -/

/-- Loop state of `pickBackendWithFastest`: `best`, `bestTime`
(initially `time.Duration(math.MaxInt64)`) and `hasAnyMeasured`. -/
structure FastestAcc where
  best : Option Backend
  bestTime : Nat
  hasAnyMeasured : Bool
deriving DecidableEq, Repr

/-- The candidate loop of `pickBackendWithFastest`. -/
def fastestScan (recordType : Nat) : List Backend → FastestAcc → FastestAcc
  | [], acc => acc
  | b :: rest, acc =>
    if !(b.IsHealthy && b.IsEnabled) then
      fastestScan recordType rest acc
    else if familySkip recordType b then
      fastestScan recordType rest acc
    else
      let rt := b.GetResponseTime
      if rt == 0 then
        match acc.best with
        | none => fastestScan recordType rest { acc with best := some b }
        | some _ => fastestScan recordType rest acc
      else
        let acc := { acc with hasAnyMeasured := true }
        if rt < acc.bestTime then
          fastestScan recordType rest { acc with best := some b, bestTime := rt }
        else
          fastestScan recordType rest acc

/-- Function `pickBackendWithFastest`. -/
def pickBackendWithFastest (record : Record) (recordType : Nat) :
    Except String (List String) :=
  let acc := fastestScan recordType record.backends ⟨none, maxInt64, false⟩
  match acc.best with
  | none => .error s!"no healthy backends in fastest mode for type {recordType}"
  | some best =>
    if acc.hasAnyMeasured && best.GetResponseTime == 0 then
      pickBackendWithFailover record recordType
    else
      .ok [best.GetAddress]

/-! ## pickBackendWithNearest -/

/-- Value of `math.MaxFloat64`, the initial `bestDistance` of
`pickBackendWithNearestCoordinates`, as an exact rational. -/
def maxFloat64 : Rat := ((2 ^ 1024 - 2 ^ 971 : Int) : Rat)

/-- The candidate loop of `pickBackendWithNearestCoordinates`.  The
`haversineKm` float computation on the client's and backend's coordinates
is abstracted into the parameter `dist`. -/
def nearestScan (recordType : Nat) (dist : Backend → Rat) :
    List Backend → Option Backend → Rat → Option Backend
  | [], best, _ => best
  | b :: rest, best, bestDistance =>
    if !(b.IsHealthy && b.IsEnabled) then
      nearestScan recordType dist rest best bestDistance
    else if !b.HasCoordinates then
      nearestScan recordType dist rest best bestDistance
    else if familySkip recordType b then
      nearestScan recordType dist rest best bestDistance
    else if dist b < bestDistance then
      nearestScan recordType dist rest (some b) (dist b)
    else
      nearestScan recordType dist rest best bestDistance

/-- Function `pickBackendWithNearestCoordinates`. -/
def pickBackendWithNearestCoordinates (record : Record) (recordType : Nat)
    (dist : Backend → Rat) : Except String (List String) :=
  match nearestScan recordType dist record.backends none maxFloat64 with
  | none => .error s!"no healthy backends with coordinates in nearest mode for type {recordType}"
  | some best => .ok [best.GetAddress]

/-- Function `pickBackendWithNearest`.  Its `cityLookup` input is `none` when the city
database is absent or the lookup for the client IP fails (the two guard
fall-backs of the source), otherwise the resolved client coordinates. -/
def pickBackendWithNearest (record : Record) (recordType : Nat)
    (cityLookup : Option (Rat × Rat)) (dist : Backend → Rat) :
    Except String (List String) :=
  match cityLookup with
  | none => pickBackendWithFailover record recordType
  | some _ =>
    match pickBackendWithNearestCoordinates record recordType dist with
    | .error _ => pickBackendWithFailover record recordType
    | .ok ips => .ok ips

/-! ## pickBackendWithGeoIP -/

/-- One country/city/ASN tier of `pickBackendWithGeoIP`: scan the backends,
appending (and breaking at) the first healthy, enabled backend satisfying
the tier's structural predicate. -/
def geoTierMatch (pred : Backend → Bool) (backends : List Backend) :
    Option Backend :=
  backends.find? (fun b => b.IsHealthy && b.IsEnabled && pred b)

/-- The per-backend inner loop of the custom location tier: find the first
table entry whose subnet parses and contains the client IP (`contains`),
and compare the backend's location label against that entry's label; the
inner loop breaks at the first containing subnet either way. -/
def locationMapMatch (locationMap : List (String × String))
    (contains : String → Bool) (b : Backend) : Bool :=
  match locationMap.find? (fun p => contains p.1) with
  | some p => b.GetLocation == p.2
  | none => false

/-- The custom location tier of `pickBackendWithGeoIP`: unlike the first
three tiers, its outer backend loop has no break after a match, so it
collects every healthy, enabled backend whose location matches. -/
def locationTier (locationMap : List (String × String))
    (contains : String → Bool) (backends : List Backend) : List String :=
  backends.filterMap (fun b =>
    if b.IsHealthy && b.IsEnabled && locationMapMatch locationMap contains b then
      some b.GetAddress
    else
      none)

/-- Function `pickBackendWithGeoIP`.  The three database lookups are parameters:
`countryLookup` is `some code` exactly when the country database is loaded,
the lookup succeeds and `IsoCode` is nonempty (and similarly `cityLookup`
for a nonempty English city name and `asnLookup` for a nonzero ASN rendered
by `fmt.Sprint`).  The location map is carried as a list in iteration
order, and `contains` tells which subnet strings parse and contain the
client IP. -/
def pickBackendWithGeoIP (record : Record) (recordType : Nat)
    (countryLookup cityLookup asnLookup : Option String)
    (locationMap : List (String × String)) (contains : String → Bool) :
    Except String (List String) :=
  match countryLookup.bind (fun c =>
      geoTierMatch (fun b => b.GetCountry == c) record.backends) with
  | some b => .ok [b.GetAddress]
  | none =>
    match cityLookup.bind (fun c =>
        geoTierMatch (fun b => b.GetCity == c) record.backends) with
    | some b => .ok [b.GetAddress]
    | none =>
      match asnLookup.bind (fun a =>
          geoTierMatch (fun b => b.GetASN == a) record.backends) with
      | some b => .ok [b.GetAddress]
      | none =>
        let matchedIPs :=
          if locationMap.isEmpty then []
          else locationTier locationMap contains record.backends
        if !matchedIPs.isEmpty then
          .ok matchedIPs
        else
          pickBackendWithFailover record recordType

/-! ## pickAllAddresses -/

/-- The registry shape of the `GSLB` struct needed by `pickAllAddresses`:
`Records` is `zone -> fqdn -> record`, carried in iteration order. -/
structure GSLB where
  records : List (String × List (String × Record)) := []

/-- Function `findRecord`: scan the zones, return the first record registered under
`domain`. -/
def findRecord (g : GSLB) (domain : String) : Option Record :=
  g.records.findSome? (fun zoneRecs =>
    (zoneRecs.2.find? (fun p => p.1 == domain)).map (fun p => p.2))

/-- The address list built by `pickAllAddresses`: every enabled backend
whose address matches the requested family. -/
def allAddressesOf (record : Record) (recordType : Nat) : List String :=
  record.backends.filterMap (fun b =>
    if b.IsEnabled && familyMatches recordType b then some b.GetAddress else none)

/-- Function `pickAllAddresses`. -/
def pickAllAddresses (g : GSLB) (domain : String) (recordType : Nat) :
    Except String (List String) :=
  match findRecord g domain with
  | none => .error s!"domain not found: {domain}"
  | some record =>
    let ipAddresses := allAddressesOf record recordType
    if ipAddresses.isEmpty then
      .error s!"no backends exist for domain: {domain}"
    else
      .ok ipAddresses

/-! ## runHealthChecks -/

/-- Per-probe outcome of one cycle: `some r` when `PerformCheck` delivered
`r` before the scrape-timeout context expired, `none` on timeout.  The
`select` arm for `ctx.Done()` stores `false`, so the effective result is: -/
def probeResult : Option Bool → Bool
  | some r => r
  | none => false

/-- The aggregation loop of `runHealthChecks`:
`alive := true; for result { if !result { alive = false; break } }`. -/
def aggregateAlive : List Bool → Bool
  | [] => true
  | r :: rest => if !r then false else aggregateAlive rest

/-- The state written back by `runHealthChecks`: `LastHealthcheck` is set
to the cycle start, `Alive` to the AND of the per-probe results, and
`ResponseTime` to the elapsed wall-clock duration.  `outcomes` carries one
entry per configured health check (the `results` array). -/
def runHealthChecks (b : Backend) (outcomes : List (Option Bool))
    (start elapsed : Nat) : Backend :=
  { b with
    lastHealthcheck := start
    alive := aggregateAlive (outcomes.map probeResult)
    responseTime := elapsed }

/-! ## updateBackend -/

/-- Helper `tagsEqual` of `backend.go`: equal lengths and pointwise equality. -/
def tagsEqual (t1 t2 : List String) : Bool :=
  if t1.length != t2.length then false
  else (t1.zip t2).all (fun p => p.1 == p.2)

/-- Modelled from the spec: `healthChecksEqual` is declared in a repository
file not present here (only its caller `updateBackend` is); §4.1 specifies
probe equivalence as structural equality, so it is embedded as structural
equality of the opaque health-check descriptors. -/
def healthChecksEqual (h1 h2 : List String) : Bool := h1 == h2

def updPriority (b nb : Backend) : Backend :=
  if b.priority != nb.GetPriority then { b with priority := nb.GetPriority } else b

def updWeight (b nb : Backend) : Backend :=
  if b.weight != nb.GetWeight then { b with weight := nb.GetWeight } else b

def updEnable (b nb : Backend) : Backend :=
  if b.enable != nb.IsEnabled then { b with enable := nb.IsEnabled } else b

def updDescription (b nb : Backend) : Backend :=
  if b.description != nb.GetDescription then { b with description := nb.GetDescription } else b

def updTimeout (b nb : Backend) : Backend :=
  if b.timeout != nb.GetTimeout then { b with timeout := nb.GetTimeout } else b

def updCountry (b nb : Backend) : Backend :=
  if b.country != nb.GetCountry then { b with country := nb.GetCountry } else b

def updCity (b nb : Backend) : Backend :=
  if b.city != nb.GetCity then { b with city := nb.GetCity } else b

def updASN (b nb : Backend) : Backend :=
  if b.asn != nb.GetASN then { b with asn := nb.GetASN } else b

def updLocation (b nb : Backend) : Backend :=
  if b.location != nb.GetLocation then { b with location := nb.GetLocation } else b

def updCoordinates (b nb : Backend) : Backend :=
  if b.coordinatesSet != nb.HasCoordinates || b.latitude != nb.GetLatitude ||
      b.longitude != nb.GetLongitude then
    { b with
      coordinatesSet := nb.HasCoordinates
      latitude := nb.GetLatitude
      longitude := nb.GetLongitude }
  else b

def updTags (b nb : Backend) : Backend :=
  if !tagsEqual b.tags nb.GetTags then { b with tags := nb.GetTags } else b

def updHealthChecks (b nb : Backend) : Backend :=
  if !healthChecksEqual b.healthChecks nb.GetHealthChecks then
    { b with healthChecks := nb.GetHealthChecks }
  else b

/-- Function `updateBackend` of `backend.go`: the sequence of diff-and-copy
mutations, in source order. -/
def updateBackend (b nb : Backend) : Backend :=
  updHealthChecks
    (updTags
      (updCoordinates
        (updLocation
          (updASN
            (updCity
              (updCountry
                (updTimeout
                  (updDescription
                    (updEnable (updWeight (updPriority b nb) nb) nb)
                    nb)
                  nb)
                nb)
              nb)
            nb)
          nb)
        nb)
      nb)
    nb

/-! ## Shared helper lemmas -/

lemma aggregateAlive_eq_true {l : List Bool} :
    aggregateAlive l = true ↔ ∀ r ∈ l, r = true := by
  induction l with
  | nil => simp [aggregateAlive]
  | cons r rest ih => cases r <;> simp [aggregateAlive, ih]

/-- The six fields of a `Backend` that `updateBackend` must not touch. -/
def RuntimeFrame (b b' : Backend) : Prop :=
  b'.alive = b.alive ∧ b'.lastHealthcheck = b.lastHealthcheck ∧
    b'.responseTime = b.responseTime ∧ b'.address = b.address ∧
    b'.fqdn = b.fqdn ∧ b'.family = b.family

lemma RuntimeFrame.comp {a b c : Backend}
    (h1 : RuntimeFrame a b) (h2 : RuntimeFrame b c) : RuntimeFrame a c := by
  obtain ⟨x1, x2, x3, x4, x5, x6⟩ := h1
  obtain ⟨y1, y2, y3, y4, y5, y6⟩ := h2
  exact ⟨y1.trans x1, y2.trans x2, y3.trans x3, y4.trans x4, y5.trans x5, y6.trans x6⟩

lemma updPriority_frame (b nb : Backend) : RuntimeFrame b (updPriority b nb) := by
  unfold updPriority; split <;> exact ⟨rfl, rfl, rfl, rfl, rfl, rfl⟩

lemma updWeight_frame (b nb : Backend) : RuntimeFrame b (updWeight b nb) := by
  unfold updWeight; split <;> exact ⟨rfl, rfl, rfl, rfl, rfl, rfl⟩

lemma updEnable_frame (b nb : Backend) : RuntimeFrame b (updEnable b nb) := by
  unfold updEnable; split <;> exact ⟨rfl, rfl, rfl, rfl, rfl, rfl⟩

lemma updDescription_frame (b nb : Backend) : RuntimeFrame b (updDescription b nb) := by
  unfold updDescription; split <;> exact ⟨rfl, rfl, rfl, rfl, rfl, rfl⟩

lemma updTimeout_frame (b nb : Backend) : RuntimeFrame b (updTimeout b nb) := by
  unfold updTimeout; split <;> exact ⟨rfl, rfl, rfl, rfl, rfl, rfl⟩

lemma updCountry_frame (b nb : Backend) : RuntimeFrame b (updCountry b nb) := by
  unfold updCountry; split <;> exact ⟨rfl, rfl, rfl, rfl, rfl, rfl⟩

lemma updCity_frame (b nb : Backend) : RuntimeFrame b (updCity b nb) := by
  unfold updCity; split <;> exact ⟨rfl, rfl, rfl, rfl, rfl, rfl⟩

lemma updASN_frame (b nb : Backend) : RuntimeFrame b (updASN b nb) := by
  unfold updASN; split <;> exact ⟨rfl, rfl, rfl, rfl, rfl, rfl⟩

lemma updLocation_frame (b nb : Backend) : RuntimeFrame b (updLocation b nb) := by
  unfold updLocation; split <;> exact ⟨rfl, rfl, rfl, rfl, rfl, rfl⟩

lemma updCoordinates_frame (b nb : Backend) : RuntimeFrame b (updCoordinates b nb) := by
  unfold updCoordinates; split <;> exact ⟨rfl, rfl, rfl, rfl, rfl, rfl⟩

lemma updTags_frame (b nb : Backend) : RuntimeFrame b (updTags b nb) := by
  unfold updTags; split <;> exact ⟨rfl, rfl, rfl, rfl, rfl, rfl⟩

lemma updHealthChecks_frame (b nb : Backend) : RuntimeFrame b (updHealthChecks b nb) := by
  unfold updHealthChecks; split <;> exact ⟨rfl, rfl, rfl, rfl, rfl, rfl⟩

lemma updateBackend_frame (b nb : Backend) : RuntimeFrame b (updateBackend b nb) := by
  unfold updateBackend
  exact ((((((((((((updPriority_frame b nb).comp
    (updWeight_frame _ nb)).comp
    (updEnable_frame _ nb)).comp
    (updDescription_frame _ nb)).comp
    (updTimeout_frame _ nb)).comp
    (updCountry_frame _ nb)).comp
    (updCity_frame _ nb)).comp
    (updASN_frame _ nb)).comp
    (updLocation_frame _ nb)).comp
    (updCoordinates_frame _ nb)).comp
    (updTags_frame _ nb)).comp
    (updHealthChecks_frame _ nb))

/-! ## Concrete inputs used by counterexamples and witnesses -/

/-- Two healthy, enabled IPv4 backends whose priorities are `-1` and `2`:
the value `-1` collides with the `minPriority` sentinel of
`pickBackendWithFailover`. -/
def cexC1 : Record :=
  { fqdn := "app.example.com.", mode := "failover",
    backends := [
      { address := "10.0.0.1", family := .v4, priority := -1, enable := true, alive := true },
      { address := "10.0.0.2", family := .v4, priority := 2, enable := true, alive := true } ] }

/-- An unmeasured healthy backend listed first, and a measured healthy
backend whose recorded time is exactly the `math.MaxInt64` sentinel. -/
def cexC4 : Record :=
  { fqdn := "fast.example.com.", mode := "fastest",
    backends := [
      { address := "10.0.0.1", family := .v4, priority := 0, enable := true, alive := true,
        responseTime := 0 },
      { address := "10.0.0.2", family := .v4, priority := 1, enable := true, alive := true,
        responseTime := maxInt64 } ] }

/-- Two healthy, enabled backends that both carry the location label of the
client's subnet. -/
def cexC8 : Record :=
  { fqdn := "geo.example.com.", mode := "geoip",
    backends := [
      { address := "10.0.0.10", family := .v4, enable := true, alive := true, location := "dc1" },
      { address := "10.0.0.11", family := .v4, enable := true, alive := true, location := "dc1" } ] }

def cexC8Map : List (String × String) := [("192.168.0.0/16", "dc1")]

def cexC8Contains : String → Bool := fun s => s == "192.168.0.0/16"

/-- A record with one enabled (not alive) backend and one disabled backend,
both with IPv4 addresses. -/
def cexC9Rec : Record :=
  { fqdn := "web.example.com.", mode := "failover",
    backends := [
      { address := "10.0.0.1", family := .v4, enable := true, alive := false },
      { address := "10.0.0.2", family := .v4, enable := false, alive := false } ] }

def cexC9 : GSLB :=
  { records := [("example.com.", [("web.example.com.", cexC9Rec)])] }

/-- Three healthy IPv4 backends for the round-robin cycle property. -/
def rec3 : Record :=
  { fqdn := "rr.example.com.", mode := "roundrobin",
    backends := [
      { address := "10.0.0.1", family := .v4, enable := true, alive := true },
      { address := "10.0.0.2", family := .v4, enable := true, alive := true },
      { address := "10.0.0.3", family := .v4, enable := true, alive := true } ] }

/-- A record with no backends at all. -/
def recNone : Record := { fqdn := "none.example.com.", backends := [] }

/-- A backend with two configured health checks. -/
def bhc : Backend := { address := "10.0.0.1", healthChecks := ["tcp-3306", "https-443"] }

/-! ## C1 -/

/-- Claim C1 (failing-input evaluation): `pickBackendWithFailover` uses
`-1` both as the "unset" sentinel and as a comparable priority, so on a
record whose healthy matching backends have priorities `-1` and `2` it
returns both addresses even though the lowest priority present is `-1`;
the claim (and the function's own doc comment) requires only the
priority `-1` address. -/
theorem C1_failover_sentinel_eval :
    pickBackendWithFailover cexC1 typeA = .ok ["10.0.0.1", "10.0.0.2"] ∧
    cexC1.backends.map (fun b => b.IsHealthy && familyMatches typeA b) = [true, true] ∧
    cexC1.backends.map Backend.GetPriority = [-1, 2] := by
  refine ⟨?_, by decide, by decide⟩
  unfold pickBackendWithFailover sortedByPriority
  rw [List.mergeSort_of_sorted (by decide)]
  rfl

/-! ## C5 -/

/-- Claim C5: after a probe cycle, the backend's aliveness bit is the
logical AND of the per-probe results of that cycle — alive iff every
configured probe delivered `true` before its timeout context expired, a
timed-out probe counting as `false` — and a backend with zero configured
probes is set alive. -/
theorem C5_healthcheck_and :
    ∀ (b : Backend) (outcomes : List (Option Bool)) (start elapsed : Nat),
    outcomes.length = b.healthChecks.length →
    ((runHealthChecks b outcomes start elapsed).alive = true ↔
      ∀ o ∈ outcomes, o = some true)
    ∧ (b.healthChecks = [] → (runHealthChecks b outcomes start elapsed).alive = true)
    ∧ probeResult none = false := by
  intro b outcomes start elapsed hlen
  refine ⟨?_, ?_, rfl⟩
  · show aggregateAlive (outcomes.map probeResult) = true ↔ _
    rw [aggregateAlive_eq_true]
    constructor
    · intro h o ho
      have hres := h (probeResult o) (List.mem_map_of_mem _ ho)
      cases o with
      | none => simp [probeResult] at hres
      | some r => cases r <;> simp_all [probeResult]
    · intro h r hr
      obtain ⟨o, ho, rfl⟩ := List.mem_map.mp hr
      rw [h o ho]
      rfl
  · intro hnil
    rw [hnil] at hlen
    have : outcomes = [] := List.length_eq_zero.mp (by simpa using hlen)
    subst this
    rfl

/-- Witness for C5 at a backend with two checks, both of which succeeded. -/
theorem C5_healthcheck_and_witness :
    (runHealthChecks bhc [some true, some true] 5 7).alive = true := by
  have h := C5_healthcheck_and bhc [some true, some true] 5 7 (by rfl)
  exact h.1.mpr (by decide)

/-! ## C7 -/

/-- Claim C7: the reload-time in-place merge `updateBackend` never writes
the backend's `Alive` bit, `LastHealthcheck` timestamp or `ResponseTime`
(nor its address, fqdn or address family), for every pair of old and new
backends — in particular a byte-identical reload leaves the runtime health
state of every persisting backend exactly unchanged. -/
theorem C7_update_frame :
    ∀ b nb : Backend,
    (updateBackend b nb).alive = b.alive ∧
    (updateBackend b nb).lastHealthcheck = b.lastHealthcheck ∧
    (updateBackend b nb).responseTime = b.responseTime ∧
    (updateBackend b nb).address = b.address ∧
    (updateBackend b nb).fqdn = b.fqdn ∧
    (updateBackend b nb).family = b.family := by
  intro b nb
  exact updateBackend_frame b nb

/-! ## C4 (counterexample) -/

/-- Claim C4 (counterexample): with an unmeasured healthy backend listed
first and a measured healthy backend whose recorded time is exactly the
`math.MaxInt64` initial sentinel, `rt < bestTime` never fires, the chosen
candidate stays the unmeasured one, and the failover fall-back then
returns the unmeasured backend's address — a measured candidate existed
but was not preferred. -/
theorem C4_fastest_counterexample :
    pickBackendWithFastest cexC4 typeA = .ok ["10.0.0.1"] ∧
    cexC4.backends.map Backend.GetResponseTime = [0, maxInt64] ∧
    cexC4.backends.map (fun b => b.IsHealthy && b.IsEnabled && familyMatches typeA b) =
      [true, true] := by
  refine ⟨?_, by decide, by decide⟩
  have hguard : pickBackendWithFastest cexC4 typeA = pickBackendWithFailover cexC4 typeA := rfl
  rw [hguard]
  unfold pickBackendWithFailover sortedByPriority
  rw [List.mergeSort_of_sorted (by decide)]
  rfl

/-! ## C8 (counterexample) -/

/-- Claim C8 (counterexample): the custom subnet-to-location tier of
`pickBackendWithGeoIP` has no outer-loop break after a match, so with two
healthy enabled backends both carrying the matching location label it
returns both addresses, not only the first structural match in scan
order. -/
theorem C8_geoip_counterexample :
    pickBackendWithGeoIP cexC8 typeA none none none cexC8Map cexC8Contains =
      .ok ["10.0.0.10", "10.0.0.11"] ∧
    cexC8.backends.map
        (fun b => b.IsHealthy && b.IsEnabled && locationMapMatch cexC8Map cexC8Contains b) =
      [true, true] := by
  exact ⟨rfl, by decide⟩

/-! ## C9 -/

/-- Claim C9 (counterexample): `pickAllAddresses` filters on
`IsEnabled()`, so the configured matching-family address `10.0.0.2` of the
disabled backend is omitted — the returned list is not "all configured
addresses of the record that match the requested address family regardless
of their health". -/
theorem C9_pickall_counterexample :
    pickAllAddresses cexC9 "web.example.com." typeA = .ok ["10.0.0.1"] ∧
    cexC9Rec.backends.map (fun b => familyMatches typeA b) = [true, true] ∧
    cexC9Rec.backends.map Backend.GetAddress = ["10.0.0.1", "10.0.0.2"] := by
  exact ⟨rfl, by decide, rfl⟩

/-- Replace every backend's aliveness bit of a record according to `f`. -/
def setAlive (f : Backend → Bool) (record : Record) : Record :=
  { record with backends := record.backends.map (fun b => { b with alive := f b }) }

/-- Claim C9 (amended): `pickAllAddresses` returns exactly the addresses of
the *enabled* backends of the record that match the requested address
family, regardless of their aliveness, and returns an error if and only if
that list is empty or the domain has no record. -/
theorem C9_pickall_spec :
    ∀ (g : GSLB) (domain : String) (recordType : Nat),
    (findRecord g domain = none →
      pickAllAddresses g domain recordType = .error s!"domain not found: {domain}")
    ∧ (∀ record, findRecord g domain = some record →
        (allAddressesOf record recordType = [] →
          pickAllAddresses g domain recordType =
            .error s!"no backends exist for domain: {domain}")
        ∧ (allAddressesOf record recordType ≠ [] →
          pickAllAddresses g domain recordType = .ok (allAddressesOf record recordType))
        ∧ (∀ a ∈ allAddressesOf record recordType, ∃ b, b ∈ record.backends ∧
            b.IsEnabled = true ∧ familyMatches recordType b = true ∧ b.GetAddress = a)
        ∧ (∀ b, b ∈ record.backends → familyMatches recordType b = true →
            b.IsEnabled = true → b.GetAddress ∈ allAddressesOf record recordType)
        ∧ (∀ f, allAddressesOf (setAlive f record) recordType =
            allAddressesOf record recordType)) := by
  intro g domain recordType
  constructor
  · intro hnone
    unfold pickAllAddresses
    rw [hnone]
  · intro record hsome
    refine ⟨?_, ?_, ?_, ?_, ?_⟩
    · intro hempty
      unfold pickAllAddresses
      rw [hsome]
      simp [hempty]
    · intro hne
      unfold pickAllAddresses
      rw [hsome]
      simp [List.isEmpty_iff, hne]
    · intro a ha
      unfold allAddressesOf at ha
      obtain ⟨b, hb, hba⟩ := List.mem_filterMap.mp ha
      by_cases hcond : (b.IsEnabled && familyMatches recordType b) = true
      · rw [Bool.and_eq_true] at hcond
        refine ⟨b, hb, hcond.1, hcond.2, ?_⟩
        rw [if_pos (by rw [hcond.1, hcond.2]; rfl)] at hba
        exact Option.some.inj hba
      · rw [if_neg hcond] at hba
        cases hba
    · intro b hb hfam hen
      unfold allAddressesOf
      refine List.mem_filterMap.mpr ⟨b, hb, ?_⟩
      rw [if_pos (by rw [hen, hfam]; rfl)]
    · intro f
      unfold allAddressesOf setAlive
      simp only [List.filterMap_map]
      rfl

/-- Witness for C9 at a domain absent from the registry. -/
theorem C9_pickall_witness :
    pickAllAddresses cexC9 "missing.example.com." typeA =
      .error "domain not found: missing.example.com." := by
  have h := C9_pickall_spec cexC9 "missing.example.com." typeA
  exact h.1 rfl

/-! ## C2 -/

/-- Claim C2: round-robin keeps one cursor per record name, each call
returns exactly the address of `healthy_candidates[cursor % len]` over the
healthy matching-family candidates in list order, then stores
`(cursor + 1) % len`; it errors exactly when there is no healthy matching
candidate; and over three healthy backends four consecutive calls return
each backend once and then repeat the first. -/
theorem C2_roundrobin_spec :
    ∀ (rr : String → Option Nat) (domain : String) (record : Record) (recordType : Nat),
    (healthyFamilyBackends record recordType = [] →
      pickBackendWithRoundRobin rr domain record recordType =
        (.error s!"no healthy backends in round-robin mode for type {recordType}", rr))
    ∧ (healthyFamilyBackends record recordType ≠ [] →
      pickBackendWithRoundRobin rr domain record recordType =
        (.ok [((healthyFamilyBackends record recordType).getD
            ((rr domain).getD 0 % (healthyFamilyBackends record recordType).length)
            default).GetAddress],
          fun d => if d == domain then
              some (((rr domain).getD 0 + 1) % (healthyFamilyBackends record recordType).length)
            else rr d))
    ∧ (∀ b ∈ healthyFamilyBackends record recordType,
        b.IsHealthy = true ∧ familyMatches recordType b = true)
    ∧ (let st0 : String → Option Nat := fun _ => none
       let c1 := pickBackendWithRoundRobin st0 "rr.example.com." rec3 typeA
       let c2 := pickBackendWithRoundRobin c1.2 "rr.example.com." rec3 typeA
       let c3 := pickBackendWithRoundRobin c2.2 "rr.example.com." rec3 typeA
       let c4 := pickBackendWithRoundRobin c3.2 "rr.example.com." rec3 typeA
       c1.1 = .ok ["10.0.0.1"] ∧ c2.1 = .ok ["10.0.0.2"] ∧
         c3.1 = .ok ["10.0.0.3"] ∧ c4.1 = .ok ["10.0.0.1"]) := by
  intro rr domain record recordType
  refine ⟨?_, ?_, ?_, ?_⟩
  · intro hempty
    unfold pickBackendWithRoundRobin
    rw [hempty]
    rfl
  · intro hne
    have hlen : ((healthyFamilyBackends record recordType).length == 0) = false := by
      simp [List.length_eq_zero, hne]
    simp [pickBackendWithRoundRobin, hlen]
  · intro b hb
    have hmem := List.mem_filter.mp hb
    rw [Bool.and_eq_true] at hmem
    exact hmem.2
  · exact ⟨rfl, rfl, rfl, rfl⟩

/-- Witness for C2 at a record with no backends. -/
theorem C2_roundrobin_witness :
    pickBackendWithRoundRobin (fun _ => none) "none.example.com." recNone typeA =
      (.error "no healthy backends in round-robin mode for type 1", fun _ => none) := by
  have h := C2_roundrobin_spec (fun _ => none) "none.example.com." recNone typeA
  exact h.1 rfl

/-! ## Weighted selection: walk characterization -/

/-- Cumulative weight of the first `k` candidates. -/
def cumWeight (l : List Backend) (k : Nat) : Int :=
  ((l.take k).map Backend.GetWeight).sum

/-- Spec-side formulation of the spec sentence "return the first candidate
whose cumulative weight exceeds the draw": index of that candidate. -/
def specFirstExceed (randVal : Int) : Int → List Backend → Option Nat
  | _, [] => none
  | acc, b :: rest =>
    if randVal < acc + b.GetWeight then some 0
    else (specFirstExceed randVal (acc + b.GetWeight) rest).map (· + 1)

lemma getD_mem {α : Type _} {l : List α} {n : Nat} {d : α} (h : n < l.length) :
    l.getD n d ∈ l := by
  induction l generalizing n with
  | nil => simp at h
  | cons a t ih =>
    cases n with
    | zero => simp [List.getD]
    | succ m =>
      simp only [List.getD_cons_succ]
      exact List.mem_cons_of_mem _ (ih (by simpa using h))

lemma rouletteWalk_eq_spec : ∀ (l : List Backend) (c r : Int),
    rouletteWalk r c l =
      (specFirstExceed r c l).map (fun i => (l.getD i default).GetAddress) := by
  intro l
  induction l with
  | nil => intro c r; rfl
  | cons b rest ih =>
    intro c r
    simp only [rouletteWalk, specFirstExceed]
    split
    · rfl
    · rw [ih]
      cases specFirstExceed r (c + b.GetWeight) rest <;>
        simp [List.getD_cons_succ]

lemma specFirstExceed_lt_length : ∀ (l : List Backend) (c r : Int) (i : Nat),
    specFirstExceed r c l = some i → i < l.length := by
  intro l
  induction l with
  | nil => intro c r i h; cases h
  | cons b rest ih =>
    intro c r i h
    simp only [specFirstExceed] at h
    split at h
    · cases h; simp
    · cases hs : specFirstExceed r (c + b.GetWeight) rest with
      | none => rw [hs] at h; cases h
      | some i' =>
        rw [hs] at h
        cases h
        have := ih _ _ _ hs
        simpa using Nat.succ_lt_succ this

lemma specFirstExceed_exceeds : ∀ (l : List Backend) (c r : Int) (i : Nat),
    specFirstExceed r c l = some i →
    r < c + ((l.take (i + 1)).map Backend.GetWeight).sum := by
  intro l
  induction l with
  | nil => intro c r i h; cases h
  | cons b rest ih =>
    intro c r i h
    simp only [specFirstExceed] at h
    split at h
    · cases h
      simpa using by assumption
    · cases hs : specFirstExceed r (c + b.GetWeight) rest with
      | none => rw [hs] at h; cases h
      | some i' =>
        rw [hs] at h
        cases h
        have hih := ih _ _ _ hs
        simp only [List.take_succ_cons, List.map_cons, List.sum_cons]
        omega

lemma specFirstExceed_min : ∀ (l : List Backend) (c r : Int) (i : Nat),
    specFirstExceed r c l = some i →
    ∀ j, j < i → c + ((l.take (j + 1)).map Backend.GetWeight).sum ≤ r := by
  intro l
  induction l with
  | nil => intro c r i h; cases h
  | cons b rest ih =>
    intro c r i h j hj
    simp only [specFirstExceed] at h
    split at h
    · cases h; omega
    · rename_i hge
      cases hs : specFirstExceed r (c + b.GetWeight) rest with
      | none => rw [hs] at h; cases h
      | some i' =>
        rw [hs] at h
        cases h
        cases j with
        | zero =>
          simp only [List.take_succ_cons, List.take_zero, List.map_cons, List.map_nil,
            List.sum_cons, List.sum_nil]
          omega
        | succ j' =>
          have hj2 : j' < i' := by simpa using hj
          have hih := ih _ _ _ hs j' hj2
          simp only [List.take_succ_cons, List.map_cons, List.sum_cons]
          omega

lemma specFirstExceed_complete : ∀ (l : List Backend) (c r : Int),
    c ≤ r → r < c + (l.map Backend.GetWeight).sum →
    specFirstExceed r c l ≠ none := by
  intro l
  induction l with
  | nil =>
    intro c r hc hr
    simp only [List.map_nil, List.sum_nil, Int.add_zero] at hr
    omega
  | cons b rest ih =>
    intro c r hc hr
    simp only [specFirstExceed]
    split
    · simp
    · rename_i hge
      have : specFirstExceed r (c + b.GetWeight) rest ≠ none := by
        refine ih _ _ (by omega) ?_
        simp only [List.map_cons, List.sum_cons] at hr
        omega
      cases hs : specFirstExceed r (c + b.GetWeight) rest with
      | none => exact absurd hs this
      | some i' => simp

lemma GetWeight_pos (b : Backend) : 0 < b.GetWeight := by
  unfold Backend.GetWeight
  split <;> omega

lemma totalWeight_pos {record : Record} {recordType : Nat}
    (h : weightedEligible record recordType ≠ []) :
    0 < totalWeight record recordType := by
  unfold totalWeight
  refine List.sum_pos _ ?_ (by simpa using h)
  intro w hw
  obtain ⟨b, _, rfl⟩ := List.mem_map.mp hw
  exact GetWeight_pos b

/-! ## C3 -/

/-- Claim C3: weighted selection is roulette-wheel selection over the
healthy, enabled, matching-family candidates with positive weight, where
the weight of every backend is `max(declared_weight, 1)`; given a draw in
`[0, totalWeight)` it returns exactly the first candidate whose cumulative
weight exceeds the draw, and it fails when no eligible candidate (or zero
total weight) exists. -/
theorem C3_weighted_spec :
    ∀ (record : Record) (recordType : Nat) (randVal : Int),
    (∀ b : Backend, b.GetWeight = max b.weight 1)
    ∧ (∀ b ∈ weightedEligible record recordType,
        b.IsHealthy = true ∧ b.IsEnabled = true ∧ familyMatches recordType b = true ∧
          0 < b.GetWeight)
    ∧ (weightedEligible record recordType = [] ∨ totalWeight record recordType = 0 →
        pickBackendWithWeighted record recordType randVal =
          .error s!"no healthy backends with weight > 0 for type {recordType}")
    ∧ (weightedEligible record recordType ≠ [] → 0 ≤ randVal →
        randVal < totalWeight record recordType →
        ∀ i, specFirstExceed randVal 0 (weightedEligible record recordType) = some i →
          pickBackendWithWeighted record recordType randVal =
            .ok [((weightedEligible record recordType).getD i default).GetAddress] ∧
          i < (weightedEligible record recordType).length ∧
          randVal < cumWeight (weightedEligible record recordType) (i + 1) ∧
          (∀ j, j < i → cumWeight (weightedEligible record recordType) (j + 1) ≤ randVal))
    ∧ (weightedEligible record recordType ≠ [] → 0 ≤ randVal →
        randVal < totalWeight record recordType →
        specFirstExceed randVal 0 (weightedEligible record recordType) ≠ none) := by
  intro record recordType randVal
  refine ⟨?_, ?_, ?_, ?_, ?_⟩
  · intro b
    unfold Backend.GetWeight
    split <;> omega
  · intro b hb
    have hmem := List.mem_filter.mp hb
    have hc := hmem.2
    simp only [Bool.and_eq_true, decide_eq_true_eq] at hc
    exact ⟨hc.1.1.1, hc.1.1.2, hc.1.2, hc.2⟩
  · intro h
    unfold pickBackendWithWeighted
    rcases h with h | h
    · simp [h]
    · simp [h]
  · intro hne h0 hW i hi
    have hWpos := totalWeight_pos hne
    have hok : pickBackendWithWeighted record recordType randVal =
        .ok [((weightedEligible record recordType).getD i default).GetAddress] := by
      simp only [pickBackendWithWeighted]
      rw [rouletteWalk_eq_spec, hi]
      have h1 : (weightedEligible record recordType).isEmpty = false := by
        simp [List.isEmpty_iff, hne]
      have h2 : (totalWeight record recordType == 0) = false := by
        simp only [beq_eq_false_iff_ne, ne_eq]
        omega
      simp [h1, h2]
    refine ⟨hok, specFirstExceed_lt_length _ _ _ _ hi, ?_, ?_⟩
    · have := specFirstExceed_exceeds _ _ _ _ hi
      simpa [cumWeight] using this
    · intro j hj
      have := specFirstExceed_min _ _ _ _ hi j hj
      simpa [cumWeight] using this
  · intro hne h0 hW
    refine specFirstExceed_complete _ 0 randVal h0 ?_
    unfold totalWeight at hW
    omega

/-- Three eligible weighted backends with declared weights 5, 1 and 4. -/
def recW : Record :=
  { fqdn := "w.example.com.", mode := "weighted",
    backends := [
      { address := "10.0.0.1", family := .v4, enable := true, alive := true, weight := 5 },
      { address := "10.0.0.2", family := .v4, enable := true, alive := true, weight := 1 },
      { address := "10.0.0.3", family := .v4, enable := true, alive := true, weight := 4 } ] }

/-- Witness for C3: over weights 5,1,4 the draw 7 falls in the third
candidate's cumulative slice. -/
theorem C3_weighted_witness :
    pickBackendWithWeighted recW typeA 7 = .ok ["10.0.0.3"] := by
  have h := (C3_weighted_spec recW typeA 7).2.2.2.1 (by decide) (by decide) (by decide)
    2 (by decide)
  exact h.1

/-! ## C10 -/

/-- Claim C10: for every nonempty eligible candidate list and every draw
in `[0, totalWeight)`, the cumulative-weight walk of
`pickBackendWithWeighted` returns a candidate before the loop ends, so the
trailing "weighted selection failed" branch after the loop is
unreachable. -/
theorem C10_weighted_total :
    ∀ (record : Record) (recordType : Nat) (randVal : Int),
    weightedEligible record recordType ≠ [] → 0 ≤ randVal →
    randVal < totalWeight record recordType →
    rouletteWalk randVal 0 (weightedEligible record recordType) ≠ none ∧
    pickBackendWithWeighted record recordType randVal ≠ .error "weighted selection failed" ∧
    ∃ b, b ∈ weightedEligible record recordType ∧
      pickBackendWithWeighted record recordType randVal = .ok [b.GetAddress] := by
  intro record recordType randVal hne h0 hW
  have hcomp : specFirstExceed randVal 0 (weightedEligible record recordType) ≠ none := by
    refine specFirstExceed_complete _ 0 randVal h0 ?_
    unfold totalWeight at hW
    omega
  cases hs : specFirstExceed randVal 0 (weightedEligible record recordType) with
  | none => exact absurd hs hcomp
  | some i =>
    have hlt := specFirstExceed_lt_length _ _ _ _ hs
    have hok : pickBackendWithWeighted record recordType randVal =
        .ok [((weightedEligible record recordType).getD i default).GetAddress] := by
      simp only [pickBackendWithWeighted]
      rw [rouletteWalk_eq_spec, hs]
      have h1 : (weightedEligible record recordType).isEmpty = false := by
        simp [List.isEmpty_iff, hne]
      have h2 : (totalWeight record recordType == 0) = false := by
        have := totalWeight_pos hne
        simp only [beq_eq_false_iff_ne, ne_eq]
        omega
      simp [h1, h2]
    refine ⟨?_, ?_, ?_⟩
    · rw [rouletteWalk_eq_spec, hs]
      simp
    · rw [hok]
      simp
    · exact ⟨_, getD_mem hlt, hok⟩

/-- Witness for C10 at the concrete weighted record and the draw 7. -/
theorem C10_weighted_total_witness :
    rouletteWalk 7 0 (weightedEligible recW typeA) ≠ none ∧
    pickBackendWithWeighted recW typeA 7 ≠ .error "weighted selection failed" := by
  have h := C10_weighted_total recW typeA 7 (by decide) (by decide) (by decide)
  exact ⟨h.1, h.2.1⟩

/-! ## Fastest selection: scan invariants -/

/-- Candidate eligibility in `pickBackendWithFastest` (healthy, enabled,
not skipped by the negated family test). -/
def eligFast (recordType : Nat) (b : Backend) : Bool :=
  b.IsHealthy && b.IsEnabled && !familySkip recordType b

lemma scan_cons_skip {recordType : Nat} {b : Backend} {l : List Backend}
    {acc : FastestAcc} (he : eligFast recordType b = false) :
    fastestScan recordType (b :: l) acc = fastestScan recordType l acc := by
  unfold eligFast at he
  cases hHE : (b.IsHealthy && b.IsEnabled) with
  | false => simp [fastestScan, hHE]
  | true =>
    rw [hHE] at he
    simp only [Bool.true_and, Bool.not_eq_false'] at he
    simp [fastestScan, hHE, he]

lemma scan_cons_zero {recordType : Nat} {b : Backend} {l : List Backend}
    {acc : FastestAcc} (he : eligFast recordType b = true)
    (h0 : b.GetResponseTime = 0) :
    fastestScan recordType (b :: l) acc =
      fastestScan recordType l
        (match acc.best with
         | none => { acc with best := some b }
         | some _ => acc) := by
  unfold eligFast at he
  simp only [Bool.and_eq_true, Bool.not_eq_true'] at he
  simp [fastestScan, he.1.1, he.1.2, he.2, h0]
  cases acc.best <;> rfl

lemma scan_cons_meas {recordType : Nat} {b : Backend} {l : List Backend}
    {acc : FastestAcc} (he : eligFast recordType b = true)
    (h0 : b.GetResponseTime ≠ 0) :
    fastestScan recordType (b :: l) acc =
      fastestScan recordType l
        (if b.GetResponseTime < acc.bestTime then
          { best := some b, bestTime := b.GetResponseTime, hasAnyMeasured := true }
        else
          { acc with hasAnyMeasured := true }) := by
  unfold eligFast at he
  simp only [Bool.and_eq_true, Bool.not_eq_true'] at he
  have h0' : (b.GetResponseTime == 0) = false := by simpa using h0
  simp [fastestScan, he.1.1, he.1.2, he.2, h0']
  split <;> rfl

lemma fastestScan_best_some (recordType : Nat) :
    ∀ (l : List Backend) (acc : FastestAcc) (x : Backend), acc.best = some x →
    ∃ y, (fastestScan recordType l acc).best = some y := by
  intro l
  induction l with
  | nil => intro acc x hx; exact ⟨x, hx⟩
  | cons b rest ih =>
    intro acc x hx
    cases he : eligFast recordType b with
    | false =>
      rw [scan_cons_skip he]
      exact ih acc x hx
    | true =>
      by_cases h0 : b.GetResponseTime = 0
      · rw [scan_cons_zero he h0, hx]
        exact ih acc x hx
      · rw [scan_cons_meas he h0]
        by_cases hlt : b.GetResponseTime < acc.bestTime
        · rw [if_pos hlt]
          exact ih _ b rfl
        · rw [if_neg hlt]
          exact ih _ x hx

lemma scan_cons_zero_none {recordType : Nat} {b : Backend} {l : List Backend}
    {acc : FastestAcc} (he : eligFast recordType b = true)
    (h0 : b.GetResponseTime = 0) (hbst : acc.best = none) :
    fastestScan recordType (b :: l) acc =
      fastestScan recordType l { acc with best := some b } := by
  rw [scan_cons_zero he h0, hbst]

lemma scan_cons_zero_some {recordType : Nat} {b x : Backend} {l : List Backend}
    {acc : FastestAcc} (he : eligFast recordType b = true)
    (h0 : b.GetResponseTime = 0) (hbst : acc.best = some x) :
    fastestScan recordType (b :: l) acc = fastestScan recordType l acc := by
  rw [scan_cons_zero he h0, hbst]

lemma fastestScan_best_none (recordType : Nat) :
    ∀ (l : List Backend) (acc : FastestAcc),
    (∀ b ∈ l, b.GetResponseTime < maxInt64) →
    (acc.best = none → acc.bestTime = maxInt64) →
    ((fastestScan recordType l acc).best = none ↔
      (acc.best = none ∧ ∀ b ∈ l, eligFast recordType b = false)) := by
  intro l
  induction l with
  | nil =>
    intro acc _ _
    simp [fastestScan]
  | cons b rest ih =>
    intro acc hb hacc
    have hbtail : ∀ x ∈ rest, x.GetResponseTime < maxInt64 :=
      fun x hx => hb x (List.mem_cons_of_mem _ hx)
    cases he : eligFast recordType b with
    | false =>
      rw [scan_cons_skip he, ih acc hbtail hacc]
      constructor
      · rintro ⟨h1, h2⟩
        refine ⟨h1, ?_⟩
        intro x hx
        rcases List.mem_cons.mp hx with rfl | hx'
        · exact he
        · exact h2 x hx'
      · rintro ⟨h1, h2⟩
        exact ⟨h1, fun x hx => h2 x (List.mem_cons_of_mem _ hx)⟩
    | true =>
      have hrhs : ¬ (acc.best = none ∧ ∀ x ∈ b :: rest, eligFast recordType x = false) := by
        rintro ⟨_, h2⟩
        have := h2 b (List.mem_cons_self _ _)
        rw [he] at this
        cases this
      refine iff_of_false ?_ hrhs
      by_cases h0 : b.GetResponseTime = 0
      · cases hbst : acc.best with
        | none =>
          rw [scan_cons_zero_none he h0 hbst]
          obtain ⟨y, hy⟩ :=
            fastestScan_best_some recordType rest { acc with best := some b } b rfl
          rw [hy]
          simp
        | some x =>
          rw [scan_cons_zero_some he h0 hbst]
          obtain ⟨y, hy⟩ := fastestScan_best_some recordType rest acc x hbst
          rw [hy]
          simp
      · rw [scan_cons_meas he h0]
        by_cases hlt : b.GetResponseTime < acc.bestTime
        · rw [if_pos hlt]
          obtain ⟨y, hy⟩ := fastestScan_best_some recordType rest
            { best := some b, bestTime := b.GetResponseTime, hasAnyMeasured := true } b rfl
          rw [hy]
          simp
        · rw [if_neg hlt]
          cases hbst : acc.best with
          | some x =>
            obtain ⟨y, hy⟩ := fastestScan_best_some recordType rest
              { best := some x, bestTime := acc.bestTime, hasAnyMeasured := true } x rfl
            rw [hy]
            simp
          | none =>
            exfalso
            have hmax := hacc hbst
            have := hb b (List.mem_cons_self _ _)
            omega

lemma fastestScan_mem (recordType : Nat) :
    ∀ (l : List Backend) (acc : FastestAcc) (b : Backend),
    (fastestScan recordType l acc).best = some b →
    acc.best = some b ∨ (b ∈ l ∧ eligFast recordType b = true) := by
  intro l
  induction l with
  | nil => intro acc b h; exact Or.inl h
  | cons x rest ih =>
    intro acc b h
    cases he : eligFast recordType x with
    | false =>
      rw [scan_cons_skip he] at h
      rcases ih acc b h with h' | ⟨hm, helig⟩
      · exact Or.inl h'
      · exact Or.inr ⟨List.mem_cons_of_mem _ hm, helig⟩
    | true =>
      by_cases h0 : x.GetResponseTime = 0
      · cases hbst : acc.best with
        | none =>
          rw [scan_cons_zero_none he h0 hbst] at h
          rcases ih _ b h with h' | ⟨hm, helig⟩
          · have hxb : x = b := by simpa using h'
            exact Or.inr ⟨hxb ▸ List.mem_cons_self _ _, hxb ▸ he⟩
          · exact Or.inr ⟨List.mem_cons_of_mem _ hm, helig⟩
        | some y =>
          rw [scan_cons_zero_some he h0 hbst] at h
          rcases ih acc b h with h' | ⟨hm, helig⟩
          · exact Or.inl (hbst ▸ h')
          · exact Or.inr ⟨List.mem_cons_of_mem _ hm, helig⟩
      · rw [scan_cons_meas he h0] at h
        by_cases hlt : x.GetResponseTime < acc.bestTime
        · rw [if_pos hlt] at h
          rcases ih _ b h with h' | ⟨hm, helig⟩
          · have hxb : x = b := by simpa using h'
            exact Or.inr ⟨hxb ▸ List.mem_cons_self _ _, hxb ▸ he⟩
          · exact Or.inr ⟨List.mem_cons_of_mem _ hm, helig⟩
        · rw [if_neg hlt] at h
          rcases ih _ b h with h' | ⟨hm, helig⟩
          · exact Or.inl h'
          · exact Or.inr ⟨List.mem_cons_of_mem _ hm, helig⟩

lemma fastestScan_all_unmeasured (recordType : Nat) :
    ∀ (l : List Backend) (acc : FastestAcc),
    (∀ b ∈ l, eligFast recordType b = true → b.GetResponseTime = 0) →
    fastestScan recordType l acc =
      (match acc.best with
       | some _ => acc
       | none =>
         match l.find? (eligFast recordType) with
         | none => acc
         | some b0 => { acc with best := some b0 }) := by
  intro l
  induction l with
  | nil =>
    intro acc _
    cases h : acc.best <;> simp [fastestScan, h, List.find?]
  | cons b rest ih =>
    intro acc hall
    have htail : ∀ x ∈ rest, eligFast recordType x = true → x.GetResponseTime = 0 :=
      fun x hx => hall x (List.mem_cons_of_mem _ hx)
    cases he : eligFast recordType b with
    | false =>
      rw [scan_cons_skip he, ih acc htail, List.find?_cons_of_neg _ (by simp [he])]
    | true =>
      have h0 : b.GetResponseTime = 0 := hall b (List.mem_cons_self _ _) he
      cases hbst : acc.best with
      | some x =>
        rw [scan_cons_zero_some he h0 hbst, ih acc htail]
        simp [hbst]
      | none =>
        rw [scan_cons_zero_none he h0 hbst, ih _ htail]
        simp [List.find?_cons_of_pos _ he]

/-- Invariant of the fastest scan: a below-sentinel `bestTime` certifies a
measured chosen candidate, and a set `hasAnyMeasured` flag certifies a
below-sentinel `bestTime`. -/
def MInv (acc : FastestAcc) : Prop :=
  (acc.bestTime < maxInt64 → ∃ b, acc.best = some b ∧ b.GetResponseTime ≠ 0) ∧
    (acc.hasAnyMeasured = true → acc.bestTime < maxInt64)

lemma fastestScan_MInv (recordType : Nat) :
    ∀ (l : List Backend) (acc : FastestAcc),
    (∀ b ∈ l, b.GetResponseTime < maxInt64) →
    MInv acc → MInv (fastestScan recordType l acc) := by
  intro l
  induction l with
  | nil => intro acc _ h; exact h
  | cons b rest ih =>
    intro acc hb hinv
    have hbtail : ∀ x ∈ rest, x.GetResponseTime < maxInt64 :=
      fun x hx => hb x (List.mem_cons_of_mem _ hx)
    cases he : eligFast recordType b with
    | false =>
      rw [scan_cons_skip he]
      exact ih acc hbtail hinv
    | true =>
      by_cases h0 : b.GetResponseTime = 0
      · cases hbst : acc.best with
        | some x =>
          rw [scan_cons_zero_some he h0 hbst]
          exact ih acc hbtail hinv
        | none =>
          rw [scan_cons_zero_none he h0 hbst]
          refine ih _ hbtail ⟨?_, hinv.2⟩
          intro hlt
          exfalso
          obtain ⟨x, hx, _⟩ := hinv.1 hlt
          rw [hbst] at hx
          cases hx
      · rw [scan_cons_meas he h0]
        by_cases hlt : b.GetResponseTime < acc.bestTime
        · rw [if_pos hlt]
          refine ih _ hbtail ⟨?_, ?_⟩
          · intro _
            exact ⟨b, rfl, h0⟩
          · intro _
            exact hb b (List.mem_cons_self _ _)
        · rw [if_neg hlt]
          refine ih _ hbtail ⟨hinv.1, ?_⟩
          intro _
          show acc.bestTime < maxInt64
          have := hb b (List.mem_cons_self _ _)
          omega

lemma fastestScan_hasMeasured_mono (recordType : Nat) :
    ∀ (l : List Backend) (acc : FastestAcc), acc.hasAnyMeasured = true →
    (fastestScan recordType l acc).hasAnyMeasured = true := by
  intro l
  induction l with
  | nil => intro acc h; exact h
  | cons b rest ih =>
    intro acc h
    cases he : eligFast recordType b with
    | false =>
      rw [scan_cons_skip he]
      exact ih acc h
    | true =>
      by_cases h0 : b.GetResponseTime = 0
      · cases hbst : acc.best with
        | some x =>
          rw [scan_cons_zero_some he h0 hbst]
          exact ih acc h
        | none =>
          rw [scan_cons_zero_none he h0 hbst]
          exact ih _ h
      · rw [scan_cons_meas he h0]
        by_cases hlt : b.GetResponseTime < acc.bestTime
        · rw [if_pos hlt]
          exact ih _ rfl
        · rw [if_neg hlt]
          exact ih _ rfl

lemma fastestScan_hasMeasured_of_mem (recordType : Nat) :
    ∀ (l : List Backend) (acc : FastestAcc) (b : Backend), b ∈ l →
    eligFast recordType b = true → b.GetResponseTime ≠ 0 →
    (fastestScan recordType l acc).hasAnyMeasured = true := by
  intro l
  induction l with
  | nil => intro acc b h; cases h
  | cons x rest ih =>
    intro acc b hmem helig h0
    rcases List.mem_cons.mp hmem with rfl | hmem'
    · rw [scan_cons_meas helig h0]
      by_cases hlt : b.GetResponseTime < acc.bestTime
      · rw [if_pos hlt]
        exact fastestScan_hasMeasured_mono recordType rest _ rfl
      · rw [if_neg hlt]
        exact fastestScan_hasMeasured_mono recordType rest _ rfl
    · cases he : eligFast recordType x with
      | false =>
        rw [scan_cons_skip he]
        exact ih acc b hmem' helig h0
      | true =>
        by_cases hx0 : x.GetResponseTime = 0
        · cases hbst : acc.best with
          | some y =>
            rw [scan_cons_zero_some he hx0 hbst]
            exact ih acc b hmem' helig h0
          | none =>
            rw [scan_cons_zero_none he hx0 hbst]
            exact ih _ b hmem' helig h0
        · rw [scan_cons_meas he hx0]
          by_cases hlt : x.GetResponseTime < acc.bestTime
          · rw [if_pos hlt]
            exact ih _ b hmem' helig h0
          · rw [if_neg hlt]
            exact ih _ b hmem' helig h0

lemma not_familySkip {recordType : Nat}
    (hrt : recordType = typeA ∨ recordType = typeAAAA) (b : Backend) :
    (!familySkip recordType b) = familyMatches recordType b := by
  rcases hrt with rfl | rfl <;> cases hf : b.family <;>
    simp [familySkip, familyMatches, typeA, typeAAAA, hf]

lemma eligFast_eq {recordType : Nat}
    (hrt : recordType = typeA ∨ recordType = typeAAAA) (b : Backend) :
    eligFast recordType b = (b.IsHealthy && b.IsEnabled && familyMatches recordType b) := by
  unfold eligFast
  rw [not_familySkip hrt b]

lemma find?_eq_head_filter {α : Type _} (p : α → Bool) :
    ∀ l : List α, l.find? p = (l.filter p).head? := by
  intro l
  induction l with
  | nil => rfl
  | cons a t ih =>
    cases hp : p a with
    | true => rw [List.find?_cons_of_pos _ hp, List.filter_cons_of_pos hp]; rfl
    | false => rw [List.find?_cons_of_neg _ (by simp [hp]), List.filter_cons_of_neg (by simp [hp]), ih]

lemma pickFastest_of_best {record : Record} {recordType : Nat} {b : Backend}
    (hbest : (fastestScan recordType record.backends ⟨none, maxInt64, false⟩).best = some b)
    (hguard : ((fastestScan recordType record.backends ⟨none, maxInt64, false⟩).hasAnyMeasured &&
        (b.GetResponseTime == 0)) = false) :
    pickBackendWithFastest record recordType = .ok [b.GetAddress] := by
  simp only [pickBackendWithFastest]
  rw [hbest]
  simp [hguard]

lemma pickFastest_of_guard {record : Record} {recordType : Nat} {b : Backend}
    (hbest : (fastestScan recordType record.backends ⟨none, maxInt64, false⟩).best = some b)
    (hguard : ((fastestScan recordType record.backends ⟨none, maxInt64, false⟩).hasAnyMeasured &&
        (b.GetResponseTime == 0)) = true) :
    pickBackendWithFastest record recordType = pickBackendWithFailover record recordType := by
  simp only [pickBackendWithFastest]
  rw [hbest]
  simp [hguard]

lemma pickFastest_of_none {record : Record} {recordType : Nat}
    (hbest : (fastestScan recordType record.backends ⟨none, maxInt64, false⟩).best = none) :
    pickBackendWithFastest record recordType =
      .error s!"no healthy backends in fastest mode for type {recordType}" := by
  simp only [pickBackendWithFastest]
  rw [hbest]

/-! ## C4 (amended theorem) -/

/-- Claim C4 (amended): provided every recorded response time is strictly
below the `math.MaxInt64` sentinel, `pickBackendWithFastest` (for an A or
AAAA query) errors exactly when there is no healthy, enabled,
matching-family candidate; if every candidate is unmeasured it returns the
first candidate encountered; if some candidate is measured, the returned
address belongs to a measured candidate (a measured candidate is always
preferred over an unmeasured one, regardless of list order); and whenever
the internal choice lands on an unmeasured candidate while a measurement
was seen, the result is the failover algorithm's result. -/
theorem C4_fastest_spec :
    ∀ (record : Record) (recordType : Nat),
    recordType = typeA ∨ recordType = typeAAAA →
    (∀ b ∈ record.backends, b.GetResponseTime < maxInt64) →
    ((∃ e, pickBackendWithFastest record recordType = .error e) ↔
      record.backends.filter
        (fun b => b.IsHealthy && b.IsEnabled && familyMatches recordType b) = [])
    ∧ ((∀ b ∈ record.backends.filter
          (fun b => b.IsHealthy && b.IsEnabled && familyMatches recordType b),
          b.GetResponseTime = 0) →
        ∀ b0, (record.backends.filter
            (fun b => b.IsHealthy && b.IsEnabled && familyMatches recordType b)).head? =
              some b0 →
          pickBackendWithFastest record recordType = .ok [b0.GetAddress])
    ∧ ((∃ b ∈ record.backends.filter
          (fun b => b.IsHealthy && b.IsEnabled && familyMatches recordType b),
          b.GetResponseTime ≠ 0) →
        ∃ b, b ∈ record.backends ∧ b.IsHealthy = true ∧ b.IsEnabled = true ∧
          familyMatches recordType b = true ∧ b.GetResponseTime ≠ 0 ∧
          pickBackendWithFastest record recordType = .ok [b.GetAddress])
    ∧ (∀ (record2 : Record) (recordType2 : Nat) (b : Backend),
        (fastestScan recordType2 record2.backends ⟨none, maxInt64, false⟩).best = some b →
        (fastestScan recordType2 record2.backends ⟨none, maxInt64, false⟩).hasAnyMeasured =
          true →
        b.GetResponseTime = 0 →
        pickBackendWithFastest record2 recordType2 =
          pickBackendWithFailover record2 recordType2) := by
  intro record recordType hrt hb
  have hfilter : record.backends.filter
      (fun b => b.IsHealthy && b.IsEnabled && familyMatches recordType b) =
      record.backends.filter (eligFast recordType) := by
    apply List.filter_congr
    intro b _
    exact (eligFast_eq hrt b).symm
  have hinv : MInv (fastestScan recordType record.backends ⟨none, maxInt64, false⟩) := by
    refine fastestScan_MInv recordType record.backends _ hb ⟨?_, ?_⟩
    · intro h
      exact absurd h (lt_irrefl _)
    · intro h
      cases h
  have hguard_false : ∀ b,
      (fastestScan recordType record.backends ⟨none, maxInt64, false⟩).best = some b →
      ((fastestScan recordType record.backends ⟨none, maxInt64, false⟩).hasAnyMeasured &&
        (b.GetResponseTime == 0)) = false := by
    intro b hbsome
    cases hm : (fastestScan recordType record.backends ⟨none, maxInt64, false⟩).hasAnyMeasured with
    | false => rfl
    | true =>
      have hlt := hinv.2 hm
      obtain ⟨x, hx, hx0⟩ := hinv.1 hlt
      rw [hbsome] at hx
      injection hx with hx
      subst hx
      have hbeq : (b.GetResponseTime == 0) = false := by simpa using hx0
      rw [hbeq]
      rfl
  refine ⟨?_, ?_, ?_, ?_⟩
  · constructor
    · rintro ⟨e, he⟩
      cases hbst : (fastestScan recordType record.backends ⟨none, maxInt64, false⟩).best with
      | some b =>
        rw [pickFastest_of_best hbst (hguard_false b hbst)] at he
        cases he
      | none =>
        have hall := (fastestScan_best_none recordType record.backends
          ⟨none, maxInt64, false⟩ hb (fun _ => rfl)).mp hbst
        rw [hfilter]
        rw [List.filter_eq_nil_iff]
        intro a ha
        simp [hall.2 a ha]
    · intro hempty
      rw [hfilter, List.filter_eq_nil_iff] at hempty
      have hall : ∀ b ∈ record.backends, eligFast recordType b = false := by
        intro b hbm
        have := hempty b hbm
        simpa using this
      have hbst : (fastestScan recordType record.backends ⟨none, maxInt64, false⟩).best =
          none := by
        exact (fastestScan_best_none recordType record.backends
          ⟨none, maxInt64, false⟩ hb (fun _ => rfl)).mpr ⟨rfl, hall⟩
      exact ⟨_, pickFastest_of_none hbst⟩
  · intro hall b0 hb0
    have hall' : ∀ b ∈ record.backends, eligFast recordType b = true →
        b.GetResponseTime = 0 := by
      intro b hbm helig
      exact hall b (by rw [hfilter]; exact List.mem_filter.mpr ⟨hbm, helig⟩)
    have hscan := fastestScan_all_unmeasured recordType record.backends
      ⟨none, maxInt64, false⟩ hall'
    have hfind : record.backends.find? (eligFast recordType) = some b0 := by
      rw [find?_eq_head_filter, ← hfilter]
      exact hb0
    have hbest : (fastestScan recordType record.backends ⟨none, maxInt64, false⟩).best =
        some b0 := by
      rw [hscan]
      simp [hfind]
    have hmeas : (fastestScan recordType record.backends
        ⟨none, maxInt64, false⟩).hasAnyMeasured = false := by
      rw [hscan]
      simp [hfind]
    refine pickFastest_of_best hbest ?_
    rw [hmeas]
    rfl
  · rintro ⟨b', hb'mem, hb'rt⟩
    rw [hfilter] at hb'mem
    have hmem2 := List.mem_filter.mp hb'mem
    have hmeas : (fastestScan recordType record.backends
        ⟨none, maxInt64, false⟩).hasAnyMeasured = true :=
      fastestScan_hasMeasured_of_mem recordType record.backends _ b' hmem2.1 hmem2.2 hb'rt
    have hlt := hinv.2 hmeas
    obtain ⟨b, hbsome, hbrt⟩ := hinv.1 hlt
    rcases fastestScan_mem recordType record.backends _ b hbsome with h' | ⟨hmem, helig⟩
    · simp at h'
    · rw [eligFast_eq hrt] at helig
      simp only [Bool.and_eq_true] at helig
      refine ⟨b, hmem, helig.1.1, helig.1.2, helig.2, hbrt, ?_⟩
      exact pickFastest_of_best hbsome (hguard_false b hbsome)
  · intro record2 recordType2 b hbest hmeas h0
    simp only [pickBackendWithFastest]
    rw [hbest]
    simp [hmeas, h0]

/-- Witness for C4 at the three-backend record whose candidates are all
unmeasured: the first one is returned. -/
theorem C4_fastest_witness :
    pickBackendWithFastest rec3 typeA = .ok ["10.0.0.1"] := by
  have h := C4_fastest_spec rec3 typeA (Or.inl rfl) (by decide)
  exact h.2.1 (by decide) _ rfl

/-! ## Healthy-membership helpers for the seven policies -/

lemma failoverCollect_mem (recordType : Nat) :
    ∀ (l : List Backend) (mp : Int) (a : String),
    a ∈ failoverCollect recordType mp l →
    ∃ b, b ∈ l ∧ b.IsHealthy = true ∧ b.GetAddress = a := by
  intro l
  induction l with
  | nil => intro mp a h; cases h
  | cons b rest ih =>
    intro mp a h
    cases hcond : (b.IsHealthy && familyMatches recordType b) with
    | false =>
      rw [show failoverCollect recordType mp (b :: rest) =
          failoverCollect recordType mp rest from by
        simp [failoverCollect, hcond]] at h
      obtain ⟨b', hb', hh, ha⟩ := ih mp a h
      exact ⟨b', List.mem_cons_of_mem _ hb', hh, ha⟩
    | true =>
      rw [Bool.and_eq_true] at hcond
      simp only [failoverCollect, hcond.1, hcond.2, Bool.and_self, if_true] at h
      split at h
      · split at h
        · rcases List.mem_cons.mp h with rfl | h'
          · exact ⟨b, List.mem_cons_self _ _, hcond.1, rfl⟩
          · obtain ⟨b', hb', hh, ha⟩ := ih _ a h'
            exact ⟨b', List.mem_cons_of_mem _ hb', hh, ha⟩
        · cases h
      · split at h
        · rcases List.mem_cons.mp h with rfl | h'
          · exact ⟨b, List.mem_cons_self _ _, hcond.1, rfl⟩
          · obtain ⟨b', hb', hh, ha⟩ := ih _ a h'
            exact ⟨b', List.mem_cons_of_mem _ hb', hh, ha⟩
        · cases h

lemma pickFailover_mem {record : Record} {recordType : Nat} {addrs : List String}
    (h : pickBackendWithFailover record recordType = .ok addrs) :
    ∀ a ∈ addrs, ∃ b, b ∈ record.backends ∧ b.IsHealthy = true ∧ b.GetAddress = a := by
  intro a ha
  simp only [pickBackendWithFailover] at h
  split at h
  · cases h
  · injection h with h
    subst h
    obtain ⟨b, hb, hh, hba⟩ := failoverCollect_mem recordType _ _ a ha
    refine ⟨b, ?_, hh, hba⟩
    have := hb
    unfold sortedByPriority at this
    exact List.mem_mergeSort.mp this

lemma pickRoundRobin_mem {rr : String → Option Nat} {domain : String} {record : Record}
    {recordType : Nat} {addrs : List String} {st : String → Option Nat}
    (h : pickBackendWithRoundRobin rr domain record recordType = (.ok addrs, st)) :
    ∀ a ∈ addrs, ∃ b, b ∈ record.backends ∧ b.IsHealthy = true ∧ b.GetAddress = a := by
  intro a ha
  simp only [pickBackendWithRoundRobin] at h
  split at h
  · simp at h
  · rename_i hlen
    injection h with h1 h2
    injection h1 with h1
    subst h1
    rw [List.mem_singleton] at ha
    subst ha
    have hpos : 0 < (healthyFamilyBackends record recordType).length := by
      rcases Nat.eq_zero_or_pos (healthyFamilyBackends record recordType).length with hz | hp
      · exact absurd (by simp [hz]) hlen
      · exact hp
    have hmem : (healthyFamilyBackends record recordType).getD
        ((rr domain).getD 0 % (healthyFamilyBackends record recordType).length) default ∈
        healthyFamilyBackends record recordType :=
      getD_mem (Nat.mod_lt _ hpos)
    have hf := List.mem_filter.mp hmem
    rw [Bool.and_eq_true] at hf
    exact ⟨_, hf.1, hf.2.1, rfl⟩

lemma pickRandom_mem {record : Record} {recordType : Nat}
    {shuffle : List Backend → List Backend} {addrs : List String}
    (hshuffle : ∀ l : List Backend, (shuffle l).Perm l)
    (h : pickBackendWithRandom record recordType shuffle = .ok addrs) :
    ∀ a ∈ addrs, ∃ b, b ∈ record.backends ∧ b.IsHealthy = true ∧ b.GetAddress = a := by
  intro a ha
  simp only [pickBackendWithRandom] at h
  split at h
  · cases h
  · injection h with h
    subst h
    obtain ⟨b, hb, rfl⟩ := List.mem_map.mp ha
    have hb' : b ∈ healthyFamilyBackends record recordType :=
      (hshuffle (healthyFamilyBackends record recordType)).mem_iff.mp hb
    have hf := List.mem_filter.mp hb'
    rw [Bool.and_eq_true] at hf
    exact ⟨b, hf.1, hf.2.1, rfl⟩

lemma rouletteWalk_mem {r c : Int} {l : List Backend} {a : String}
    (h : rouletteWalk r c l = some a) : ∃ b, b ∈ l ∧ b.GetAddress = a := by
  rw [rouletteWalk_eq_spec] at h
  cases hs : specFirstExceed r c l with
  | none => rw [hs] at h; cases h
  | some i =>
    rw [hs] at h
    injection h with h
    exact ⟨_, getD_mem (specFirstExceed_lt_length _ _ _ _ hs), h⟩

lemma pickWeighted_mem {record : Record} {recordType : Nat} {randVal : Int}
    {addrs : List String}
    (h : pickBackendWithWeighted record recordType randVal = .ok addrs) :
    ∀ a ∈ addrs, ∃ b, b ∈ record.backends ∧ b.IsHealthy = true ∧ b.GetAddress = a := by
  intro a ha
  simp only [pickBackendWithWeighted] at h
  split at h
  · cases h
  · cases hw : rouletteWalk randVal 0 (weightedEligible record recordType) with
    | none => rw [hw] at h; cases h
    | some addr =>
      rw [hw] at h
      injection h with h
      subst h
      rw [List.mem_singleton] at ha
      subst ha
      obtain ⟨b, hb, hba⟩ := rouletteWalk_mem hw
      have hf := List.mem_filter.mp hb
      simp only [Bool.and_eq_true] at hf
      exact ⟨b, hf.1, hf.2.1.1.1, hba⟩

lemma nearestScan_mem (recordType : Nat) (dist : Backend → Rat) :
    ∀ (l : List Backend) (best : Option Backend) (bestD : Rat) (b : Backend),
    nearestScan recordType dist l best bestD = some b →
    best = some b ∨ (b ∈ l ∧ b.IsHealthy = true) := by
  intro l
  induction l with
  | nil => intro best bestD b h; exact Or.inl h
  | cons x rest ih =>
    intro best bestD b h
    simp only [nearestScan] at h
    split at h
    · exact (ih _ _ _ h).imp id (fun hp => ⟨List.mem_cons_of_mem _ hp.1, hp.2⟩)
    · rename_i h1
      split at h
      · exact (ih _ _ _ h).imp id (fun hp => ⟨List.mem_cons_of_mem _ hp.1, hp.2⟩)
      · split at h
        · exact (ih _ _ _ h).imp id (fun hp => ⟨List.mem_cons_of_mem _ hp.1, hp.2⟩)
        · have h1' : (x.IsHealthy && x.IsEnabled) = true := by
            simpa using h1
          have hx : x.IsHealthy = true := by
            rw [Bool.and_eq_true] at h1'
            exact h1'.1
          split at h
          · rcases ih _ _ _ h with h' | hp
            · injection h' with h'
              exact Or.inr ⟨h' ▸ List.mem_cons_self _ _, h' ▸ hx⟩
            · exact Or.inr ⟨List.mem_cons_of_mem _ hp.1, hp.2⟩
          · exact (ih _ _ _ h).imp id (fun hp => ⟨List.mem_cons_of_mem _ hp.1, hp.2⟩)

lemma pickNearestCoordinates_mem {record : Record} {recordType : Nat}
    {dist : Backend → Rat} {addrs : List String}
    (h : pickBackendWithNearestCoordinates record recordType dist = .ok addrs) :
    ∀ a ∈ addrs, ∃ b, b ∈ record.backends ∧ b.IsHealthy = true ∧ b.GetAddress = a := by
  intro a ha
  simp only [pickBackendWithNearestCoordinates] at h
  cases hs : nearestScan recordType dist record.backends none maxFloat64 with
  | none => rw [hs] at h; cases h
  | some best =>
    rw [hs] at h
    injection h with h
    subst h
    rw [List.mem_singleton] at ha
    subst ha
    rcases nearestScan_mem recordType dist record.backends none maxFloat64 best hs with h' | hp
    · cases h'
    · exact ⟨best, hp.1, hp.2, rfl⟩

lemma pickNearest_mem {record : Record} {recordType : Nat}
    {cityLookup : Option (Rat × Rat)} {dist : Backend → Rat} {addrs : List String}
    (h : pickBackendWithNearest record recordType cityLookup dist = .ok addrs) :
    ∀ a ∈ addrs, ∃ b, b ∈ record.backends ∧ b.IsHealthy = true ∧ b.GetAddress = a := by
  cases cityLookup with
  | none => exact pickFailover_mem h
  | some coords =>
    simp only [pickBackendWithNearest] at h
    cases hinner : pickBackendWithNearestCoordinates record recordType dist with
    | error e =>
      rw [hinner] at h
      exact pickFailover_mem h
    | ok ips =>
      rw [hinner] at h
      injection h with h
      subst h
      exact pickNearestCoordinates_mem hinner

lemma geoTierMatch_mem {pred : Backend → Bool} {backends : List Backend} {b : Backend}
    (h : geoTierMatch pred backends = some b) :
    b ∈ backends ∧ b.IsHealthy = true ∧ b.IsEnabled = true ∧ pred b = true := by
  have hmem := List.mem_of_find?_eq_some h
  have hp := List.find?_some h
  simp only [Bool.and_eq_true] at hp
  exact ⟨hmem, hp.1.1, hp.1.2, hp.2⟩

lemma locationTier_mem {locationMap : List (String × String)} {contains : String → Bool}
    {backends : List Backend} {a : String}
    (h : a ∈ locationTier locationMap contains backends) :
    ∃ b, b ∈ backends ∧ b.IsHealthy = true ∧ b.IsEnabled = true ∧
      locationMapMatch locationMap contains b = true ∧ b.GetAddress = a := by
  obtain ⟨b, hb, hba⟩ := List.mem_filterMap.mp h
  by_cases hcond : (b.IsHealthy && b.IsEnabled && locationMapMatch locationMap contains b) = true
  · rw [if_pos hcond] at hba
    simp only [Bool.and_eq_true] at hcond
    exact ⟨b, hb, hcond.1.1, hcond.1.2, hcond.2, Option.some.inj hba⟩
  · rw [if_neg hcond] at hba
    cases hba

lemma pickGeoIP_mem {record : Record} {recordType : Nat}
    {countryLookup cityLookup asnLookup : Option String}
    {locationMap : List (String × String)} {contains : String → Bool}
    {addrs : List String}
    (h : pickBackendWithGeoIP record recordType countryLookup cityLookup asnLookup
      locationMap contains = .ok addrs) :
    ∀ a ∈ addrs, ∃ b, b ∈ record.backends ∧ b.IsHealthy = true ∧ b.GetAddress = a := by
  intro a ha
  simp only [pickBackendWithGeoIP] at h
  cases h1 : countryLookup.bind (fun c =>
      geoTierMatch (fun b => b.GetCountry == c) record.backends) with
  | some b =>
    rw [h1] at h
    injection h with h
    subst h
    rw [List.mem_singleton] at ha
    subst ha
    obtain ⟨c, _, hm⟩ := Option.bind_eq_some.mp h1
    obtain ⟨hmem, hh, _, _⟩ := geoTierMatch_mem hm
    exact ⟨b, hmem, hh, rfl⟩
  | none =>
    rw [h1] at h
    cases h2 : cityLookup.bind (fun c =>
        geoTierMatch (fun b => b.GetCity == c) record.backends) with
    | some b =>
      rw [h2] at h
      injection h with h
      subst h
      rw [List.mem_singleton] at ha
      subst ha
      obtain ⟨c, _, hm⟩ := Option.bind_eq_some.mp h2
      obtain ⟨hmem, hh, _, _⟩ := geoTierMatch_mem hm
      exact ⟨b, hmem, hh, rfl⟩
    | none =>
      rw [h2] at h
      cases h3 : asnLookup.bind (fun c =>
          geoTierMatch (fun b => b.GetASN == c) record.backends) with
      | some b =>
        rw [h3] at h
        injection h with h
        subst h
        rw [List.mem_singleton] at ha
        subst ha
        obtain ⟨c, _, hm⟩ := Option.bind_eq_some.mp h3
        obtain ⟨hmem, hh, _, _⟩ := geoTierMatch_mem hm
        exact ⟨b, hmem, hh, rfl⟩
      | none =>
        rw [h3] at h
        by_cases hlm : locationMap.isEmpty
        · simp only [hlm] at h
          simp at h
          exact pickFailover_mem h a ha
        · have hlm' : locationMap.isEmpty = false := by
            simpa using hlm
          by_cases hloc : (locationTier locationMap contains record.backends).isEmpty = true
          · simp [hlm', hloc] at h
            exact pickFailover_mem h a ha
          · have hloc' : (locationTier locationMap contains record.backends).isEmpty =
                false := by
              simpa using hloc
            simp [hlm', hloc'] at h
            subst h
            obtain ⟨b, hmem, hh, _, _, hba⟩ := locationTier_mem ha
            exact ⟨b, hmem, hh, hba⟩

lemma pickFastest_mem {record : Record} {recordType : Nat} {addrs : List String}
    (h : pickBackendWithFastest record recordType = .ok addrs) :
    ∀ a ∈ addrs, ∃ b, b ∈ record.backends ∧ b.IsHealthy = true ∧ b.GetAddress = a := by
  intro a ha
  cases hbst : (fastestScan recordType record.backends ⟨none, maxInt64, false⟩).best with
  | none =>
    rw [pickFastest_of_none hbst] at h
    cases h
  | some b =>
    by_cases hguard : ((fastestScan recordType record.backends
        ⟨none, maxInt64, false⟩).hasAnyMeasured && (b.GetResponseTime == 0)) = true
    · rw [pickFastest_of_guard hbst hguard] at h
      exact pickFailover_mem h a ha
    · rw [pickFastest_of_best hbst (by simpa using hguard)] at h
      injection h with h
      subst h
      rw [List.mem_singleton] at ha
      subst ha
      rcases fastestScan_mem recordType record.backends _ b hbst with h' | ⟨hmem, helig⟩
      · cases h'
      · unfold eligFast at helig
        simp only [Bool.and_eq_true] at helig
        exact ⟨b, hmem, helig.1.1, rfl⟩

/-! ## C6 -/

/-- Claim C6: a backend is healthy exactly when it is enabled and alive
(so flipping `enable` while `alive` stays true flips healthiness), and
every address returned by any of the seven selection policies belongs to a
backend of the record that was healthy at selection time. -/
theorem C6_healthy_invariant :
    (∀ b : Backend, b.IsHealthy = (b.enable && b.alive))
    ∧ (∀ b : Backend, b.alive = true → ∀ e : Bool,
        ({ b with enable := e } : Backend).IsHealthy = e)
    ∧ (∀ (record : Record) (recordType : Nat) (addrs : List String),
        pickBackendWithFailover record recordType = .ok addrs →
        ∀ a ∈ addrs, ∃ b, b ∈ record.backends ∧ b.IsHealthy = true ∧ b.GetAddress = a)
    ∧ (∀ (rr : String → Option Nat) (domain : String) (record : Record)
        (recordType : Nat) (addrs : List String) (st : String → Option Nat),
        pickBackendWithRoundRobin rr domain record recordType = (.ok addrs, st) →
        ∀ a ∈ addrs, ∃ b, b ∈ record.backends ∧ b.IsHealthy = true ∧ b.GetAddress = a)
    ∧ (∀ (record : Record) (recordType : Nat) (shuffle : List Backend → List Backend)
        (addrs : List String), (∀ l : List Backend, (shuffle l).Perm l) →
        pickBackendWithRandom record recordType shuffle = .ok addrs →
        ∀ a ∈ addrs, ∃ b, b ∈ record.backends ∧ b.IsHealthy = true ∧ b.GetAddress = a)
    ∧ (∀ (record : Record) (recordType : Nat) (randVal : Int) (addrs : List String),
        pickBackendWithWeighted record recordType randVal = .ok addrs →
        ∀ a ∈ addrs, ∃ b, b ∈ record.backends ∧ b.IsHealthy = true ∧ b.GetAddress = a)
    ∧ (∀ (record : Record) (recordType : Nat)
        (countryLookup cityLookup asnLookup : Option String)
        (locationMap : List (String × String)) (contains : String → Bool)
        (addrs : List String),
        pickBackendWithGeoIP record recordType countryLookup cityLookup asnLookup
          locationMap contains = .ok addrs →
        ∀ a ∈ addrs, ∃ b, b ∈ record.backends ∧ b.IsHealthy = true ∧ b.GetAddress = a)
    ∧ (∀ (record : Record) (recordType : Nat) (cityLookup : Option (Rat × Rat))
        (dist : Backend → Rat) (addrs : List String),
        pickBackendWithNearest record recordType cityLookup dist = .ok addrs →
        ∀ a ∈ addrs, ∃ b, b ∈ record.backends ∧ b.IsHealthy = true ∧ b.GetAddress = a)
    ∧ (∀ (record : Record) (recordType : Nat) (addrs : List String),
        pickBackendWithFastest record recordType = .ok addrs →
        ∀ a ∈ addrs, ∃ b, b ∈ record.backends ∧ b.IsHealthy = true ∧ b.GetAddress = a) := by
  refine ⟨?_, ?_, ?_, ?_, ?_, ?_, ?_, ?_, ?_⟩
  · intro b
    unfold Backend.IsHealthy
    cases b.alive <;> cases b.enable <;> rfl
  · intro b hal e
    show (b.alive && e) = e
    rw [hal]
    exact Bool.true_and e
  · intro record recordType addrs h
    exact pickFailover_mem h
  · intro rr domain record recordType addrs st h
    exact pickRoundRobin_mem h
  · intro record recordType shuffle addrs hshuffle h
    exact pickRandom_mem hshuffle h
  · intro record recordType randVal addrs h
    exact pickWeighted_mem h
  · intro record recordType c1 c2 c3 lm contains addrs h
    exact pickGeoIP_mem h
  · intro record recordType cityLookup dist addrs h
    exact pickNearest_mem h
  · intro record recordType addrs h
    exact pickFastest_mem h

/-- Witness for C6: flipping `enable` off while `alive` is true makes the
backend unhealthy. -/
theorem C6_healthy_invariant_witness :
    ({ address := "10.0.0.9", family := IPFamily.v4, enable := false,
        alive := true } : Backend).IsHealthy = false := by
  have h := C6_healthy_invariant
  exact h.2.1
    { address := "10.0.0.9", family := IPFamily.v4, enable := true, alive := true }
    rfl false

/-! ## C8 (amended theorem) -/

lemma find?_first_index {α : Type _} [Inhabited α] (p : α → Bool) :
    ∀ (l : List α) (b : α), l.find? p = some b →
    ∃ i, i < l.length ∧ l.getD i default = b ∧ p b = true ∧
      ∀ j, j < i → p (l.getD j default) = false := by
  intro l
  induction l with
  | nil => intro b h; cases h
  | cons a t ih =>
    intro b h
    cases hp : p a with
    | true =>
      rw [List.find?_cons_of_pos _ hp] at h
      injection h with h
      subst h
      exact ⟨0, by simp, rfl, hp, fun j hj => absurd hj (Nat.not_lt_zero j)⟩
    | false =>
      rw [List.find?_cons_of_neg _ (by simp [hp])] at h
      obtain ⟨i, hlen, hget, hpb, hmin⟩ := ih b h
      refine ⟨i + 1, by simpa using Nat.succ_lt_succ hlen, by simpa using hget, hpb, ?_⟩
      intro j hj
      cases j with
      | zero => simpa using hp
      | succ j' => simpa using hmin j' (by omega)

lemma locationTier_nil (contains : String → Bool) :
    ∀ l : List Backend, locationTier [] contains l = [] := by
  intro l
  induction l with
  | nil => rfl
  | cons b t ih =>
    unfold locationTier at ih ⊢
    rw [List.filterMap_cons]
    have hm : locationMapMatch [] contains b = false := rfl
    simp only [hm, Bool.and_false, Bool.false_eq_true, if_false]
    exact ih

/-- Claim C8 (amended): `pickBackendWithGeoIP` tries its tiers strictly in
the order country, city, ASN, custom subnet table, each considering only
healthy and enabled candidates; the country, city and ASN tiers return
only the first structural match in scan order, while the custom subnet
tier returns *all* healthy enabled backends whose location label equals
the label of the first client-containing table entry; and whenever no tier
produces a match the result equals the failover algorithm on the same
record and address family. -/
theorem C8_geoip_spec :
    ∀ (record : Record) (recordType : Nat)
      (countryLookup cityLookup asnLookup : Option String)
      (locationMap : List (String × String)) (contains : String → Bool),
    (∀ b, countryLookup.bind (fun c =>
        geoTierMatch (fun x => x.GetCountry == c) record.backends) = some b →
      pickBackendWithGeoIP record recordType countryLookup cityLookup asnLookup
        locationMap contains = .ok [b.GetAddress])
    ∧ (countryLookup.bind (fun c =>
        geoTierMatch (fun x => x.GetCountry == c) record.backends) = none →
      ∀ b, cityLookup.bind (fun c =>
          geoTierMatch (fun x => x.GetCity == c) record.backends) = some b →
        pickBackendWithGeoIP record recordType countryLookup cityLookup asnLookup
          locationMap contains = .ok [b.GetAddress])
    ∧ (countryLookup.bind (fun c =>
        geoTierMatch (fun x => x.GetCountry == c) record.backends) = none →
      cityLookup.bind (fun c =>
          geoTierMatch (fun x => x.GetCity == c) record.backends) = none →
      ∀ b, asnLookup.bind (fun c =>
          geoTierMatch (fun x => x.GetASN == c) record.backends) = some b →
        pickBackendWithGeoIP record recordType countryLookup cityLookup asnLookup
          locationMap contains = .ok [b.GetAddress])
    ∧ (countryLookup.bind (fun c =>
        geoTierMatch (fun x => x.GetCountry == c) record.backends) = none →
      cityLookup.bind (fun c =>
          geoTierMatch (fun x => x.GetCity == c) record.backends) = none →
      asnLookup.bind (fun c =>
          geoTierMatch (fun x => x.GetASN == c) record.backends) = none →
      locationTier locationMap contains record.backends ≠ [] →
      pickBackendWithGeoIP record recordType countryLookup cityLookup asnLookup
        locationMap contains = .ok (locationTier locationMap contains record.backends))
    ∧ (countryLookup.bind (fun c =>
        geoTierMatch (fun x => x.GetCountry == c) record.backends) = none →
      cityLookup.bind (fun c =>
          geoTierMatch (fun x => x.GetCity == c) record.backends) = none →
      asnLookup.bind (fun c =>
          geoTierMatch (fun x => x.GetASN == c) record.backends) = none →
      locationTier locationMap contains record.backends = [] →
      pickBackendWithGeoIP record recordType countryLookup cityLookup asnLookup
        locationMap contains = pickBackendWithFailover record recordType)
    ∧ (∀ (pred : Backend → Bool) (b : Backend),
        geoTierMatch pred record.backends = some b →
        ∃ i, i < record.backends.length ∧ record.backends.getD i default = b ∧
          (b.IsHealthy && b.IsEnabled && pred b) = true ∧
          ∀ j, j < i →
            ((record.backends.getD j default).IsHealthy &&
              (record.backends.getD j default).IsEnabled &&
              pred (record.backends.getD j default)) = false)
    ∧ (∀ a, a ∈ locationTier locationMap contains record.backends ↔
        ∃ b, b ∈ record.backends ∧ b.IsHealthy = true ∧ b.IsEnabled = true ∧
          locationMapMatch locationMap contains b = true ∧ b.GetAddress = a) := by
  intro record recordType countryLookup cityLookup asnLookup locationMap contains
  refine ⟨?_, ?_, ?_, ?_, ?_, ?_, ?_⟩
  · intro b h1
    simp only [pickBackendWithGeoIP]
    rw [h1]
  · intro h1 b h2
    simp only [pickBackendWithGeoIP]
    rw [h1, h2]
  · intro h1 h2 b h3
    simp only [pickBackendWithGeoIP]
    rw [h1, h2, h3]
  · intro h1 h2 h3 hloc
    simp only [pickBackendWithGeoIP]
    rw [h1, h2, h3]
    by_cases hlm : locationMap.isEmpty = true
    · exfalso
      apply hloc
      rw [List.isEmpty_iff.mp hlm]
      exact locationTier_nil contains record.backends
    · have hlm' : locationMap.isEmpty = false := by
        simpa using hlm
      have hloc' : (locationTier locationMap contains record.backends).isEmpty = false := by
        simpa [List.isEmpty_iff] using hloc
      simp [hlm', hloc']
  · intro h1 h2 h3 hloc
    simp only [pickBackendWithGeoIP]
    rw [h1, h2, h3]
    by_cases hlm : locationMap.isEmpty = true
    · simp [hlm]
    · have hlm' : locationMap.isEmpty = false := by
        simpa using hlm
      simp [hlm', hloc]
  · intro pred b h
    unfold geoTierMatch at h
    obtain ⟨i, hlen, hget, hpb, hmin⟩ := find?_first_index _ record.backends b h
    refine ⟨i, hlen, hget, hpb, ?_⟩
    intro j hj
    have := hmin j hj
    simpa using this
  · intro a
    constructor
    · exact fun h => locationTier_mem h
    · rintro ⟨b, hmem, hh, he, hl, rfl⟩
      unfold locationTier
      refine List.mem_filterMap.mpr ⟨b, hmem, ?_⟩
      rw [if_pos (by rw [hh, he, hl]; rfl)]

/-- Witness for C8: with no database lookups and an empty location table,
geoip selection equals failover on the same record. -/
theorem C8_geoip_witness :
    pickBackendWithGeoIP rec3 typeA none none none [] (fun _ => false) =
      pickBackendWithFailover rec3 typeA := by
  have h := C8_geoip_spec rec3 typeA none none none [] (fun _ => false)
  exact h.2.2.2.2.1 rfl rfl rfl (locationTier_nil _ rec3.backends)

end CoreDNSGSLB
